import Mathlib

/-!
# MQTTWatcher core: shallow embedding and verification

This file embeds the rule-evaluation core of the MQTTWatcher repository
(`src/core/EventUtils.ts`, `src/core/Watcher.ts`, `src/core/MessageService.ts`)
in Lean 4 and proves properties of the embedded definitions.

Modelling conventions:
* JavaScript values are the inductive `JVal` (string, number, boolean, null,
  undefined, object). JSON arrays and host objects are outside the model; the
  configurations and payloads exercised here never contain them.
* JavaScript numbers are modelled as exact rationals `ℚ`. `NaN` is modelled by
  `Option ℚ` at the points where the source produces it (`Number(...)`），and the
  decimal fragment of the `Number` string grammar is implemented
  (sign, digits, fraction, exponent); hex literals and `Infinity` are outside
  the model. All values reached in the theorems below stay inside this fragment.
* Wall-clock inputs (`Date.now() / 1000`, current local minutes) are passed as
  explicit parameters. `setTimeout` is modelled symbolically: arming a timer
  records its delay and captured data, clearing it erases the record.
* Logging is not modelled (the logger has no feedback into the pipeline).
-/

namespace MQTTWatcher

/-- Characters written via codes so that brace characters never appear
literally in the file. -/
def lbraceC : Char := Char.ofNat 123

/-- Closing brace character. -/
def rbraceC : Char := Char.ofNat 125

/-- Dollar character. -/
def dollarC : Char := Char.ofNat 36

/-- JavaScript runtime values, restricted to the JSON-plus-undefined fragment
the watcher core manipulates. Arrays are outside the model. -/
inductive JVal where
  | vStr : String → JVal
  | vNum : ℚ → JVal
  | vBool : Bool → JVal
  | vNull : JVal
  | vUndefined : JVal
  | vObj : List (String × JVal) → JVal

namespace JVal

mutual

/-- Decidable equality of modelled JS values, by hand because the nested
object field list defeats the automatic derivation. -/
def decEqJVal : (a b : JVal) → Decidable (a = b)
  | .vStr x, .vStr y =>
    match decEq x y with
    | isTrue h => isTrue (by rw [h])
    | isFalse h => isFalse (by intro hh; injection hh; contradiction)
  | .vNum x, .vNum y =>
    match decEq x y with
    | isTrue h => isTrue (by rw [h])
    | isFalse h => isFalse (by intro hh; injection hh; contradiction)
  | .vBool x, .vBool y =>
    match decEq x y with
    | isTrue h => isTrue (by rw [h])
    | isFalse h => isFalse (by intro hh; injection hh; contradiction)
  | .vNull, .vNull => isTrue rfl
  | .vUndefined, .vUndefined => isTrue rfl
  | .vObj xs, .vObj ys =>
    match decEqJFields xs ys with
    | isTrue h => isTrue (by rw [h])
    | isFalse h => isFalse (by intro hh; injection hh; contradiction)
  | .vStr _, .vNum _ => isFalse (fun h => JVal.noConfusion h)
  | .vStr _, .vBool _ => isFalse (fun h => JVal.noConfusion h)
  | .vStr _, .vNull => isFalse (fun h => JVal.noConfusion h)
  | .vStr _, .vUndefined => isFalse (fun h => JVal.noConfusion h)
  | .vStr _, .vObj _ => isFalse (fun h => JVal.noConfusion h)
  | .vNum _, .vStr _ => isFalse (fun h => JVal.noConfusion h)
  | .vNum _, .vBool _ => isFalse (fun h => JVal.noConfusion h)
  | .vNum _, .vNull => isFalse (fun h => JVal.noConfusion h)
  | .vNum _, .vUndefined => isFalse (fun h => JVal.noConfusion h)
  | .vNum _, .vObj _ => isFalse (fun h => JVal.noConfusion h)
  | .vBool _, .vStr _ => isFalse (fun h => JVal.noConfusion h)
  | .vBool _, .vNum _ => isFalse (fun h => JVal.noConfusion h)
  | .vBool _, .vNull => isFalse (fun h => JVal.noConfusion h)
  | .vBool _, .vUndefined => isFalse (fun h => JVal.noConfusion h)
  | .vBool _, .vObj _ => isFalse (fun h => JVal.noConfusion h)
  | .vNull, .vStr _ => isFalse (fun h => JVal.noConfusion h)
  | .vNull, .vNum _ => isFalse (fun h => JVal.noConfusion h)
  | .vNull, .vBool _ => isFalse (fun h => JVal.noConfusion h)
  | .vNull, .vUndefined => isFalse (fun h => JVal.noConfusion h)
  | .vNull, .vObj _ => isFalse (fun h => JVal.noConfusion h)
  | .vUndefined, .vStr _ => isFalse (fun h => JVal.noConfusion h)
  | .vUndefined, .vNum _ => isFalse (fun h => JVal.noConfusion h)
  | .vUndefined, .vBool _ => isFalse (fun h => JVal.noConfusion h)
  | .vUndefined, .vNull => isFalse (fun h => JVal.noConfusion h)
  | .vUndefined, .vObj _ => isFalse (fun h => JVal.noConfusion h)
  | .vObj _, .vStr _ => isFalse (fun h => JVal.noConfusion h)
  | .vObj _, .vNum _ => isFalse (fun h => JVal.noConfusion h)
  | .vObj _, .vBool _ => isFalse (fun h => JVal.noConfusion h)
  | .vObj _, .vNull => isFalse (fun h => JVal.noConfusion h)
  | .vObj _, .vUndefined => isFalse (fun h => JVal.noConfusion h)

/-- Decidable equality of object field lists. -/
def decEqJFields : (xs ys : List (String × JVal)) → Decidable (xs = ys)
  | [], [] => isTrue rfl
  | [], _ :: _ => isFalse (fun h => List.noConfusion h)
  | _ :: _, [] => isFalse (fun h => List.noConfusion h)
  | (k, v) :: xs, (k', v') :: ys =>
    match decEq k k' with
    | isFalse h =>
      isFalse (by intro hh; injection hh with h1 h2; injection h1; contradiction)
    | isTrue h1 =>
      match decEqJVal v v' with
      | isFalse h =>
        isFalse (by intro hh; injection hh with ha hb; injection ha; contradiction)
      | isTrue h2 =>
        match decEqJFields xs ys with
        | isFalse h => isFalse (by intro hh; injection hh; contradiction)
        | isTrue h3 => isTrue (by rw [h1, h2, h3])

end

instance : DecidableEq JVal := decEqJVal

/-- JS whitespace recognized by `String.prototype.trim` and by `Number(...)`
(the ASCII subset; exotic Unicode spaces are outside the model). -/
def jsWS (c : Char) : Bool :=
  c = ' ' ∨ c = '\t' ∨ c = '\n' ∨ c = '\r'

/-- Source `trim` on a character list. -/
def trimChars (cs : List Char) : List Char :=
  ((cs.dropWhile jsWS).reverse.dropWhile jsWS).reverse

/-- JS `String.prototype.trim`. -/
def jsTrim (s : String) : String := String.mk (trimChars s.data)

/-- ASCII `toLowerCase` (by characters, so that it evaluates inside the
kernel). -/
def lowerStr (s : String) : String := String.mk (s.data.map Char.toLower)

/-- ASCII `toUpperCase`. -/
def upperStr (s : String) : String := String.mk (s.data.map Char.toUpper)

/-- Digit list to natural number. -/
def digVal (cs : List Char) : ℕ :=
  cs.foldl (fun a c => a * 10 + (c.toNat - 48)) 0

/-- Exponent part of the JS decimal number grammar: `e`/`E`, optional sign,
digits. Applied to an already-parsed mantissa. -/
def parseExpPart (cs : List Char) (base : ℚ) : Option ℚ :=
  match cs with
  | [] => some base
  | c :: rest =>
    if c = 'e' ∨ c = 'E' then
      let (sgn, ds) : ℤ × List Char :=
        match rest with
        | '+' :: ds => (1, ds)
        | '-' :: ds => (-1, ds)
        | ds => (1, ds)
      if ds ≠ [] ∧ ds.all Char.isDigit then
        some (base * (10 : ℚ) ^ (sgn * (digVal ds : ℤ)))
      else none
    else none

/-- Unsigned decimal literal: `digits [. digits] [exp]` or `. digits [exp]`. -/
def parseDec (cs : List Char) : Option ℚ :=
  let ip := cs.takeWhile Char.isDigit
  let rest1 := cs.dropWhile Char.isDigit
  match rest1 with
  | '.' :: rest2 =>
    let fp := rest2.takeWhile Char.isDigit
    let rest3 := rest2.dropWhile Char.isDigit
    if ip = [] ∧ fp = [] then none
    else parseExpPart rest3 ((digVal ip : ℚ) + (digVal fp : ℚ) / (10 : ℚ) ^ fp.length)
  | _ => if ip = [] then none else parseExpPart rest1 (digVal ip)

/-- JS `Number(string)` on the decimal fragment: trim, empty string is `0`,
optional sign, decimal literal. `none` models `NaN`. Hex/octal/binary literals
and `Infinity` are outside the model. -/
def strToNum (s : String) : Option ℚ :=
  let cs := trimChars s.data
  match cs with
  | [] => some 0
  | '+' :: rest => parseDec rest
  | '-' :: rest => (parseDec rest).map Neg.neg
  | _ => parseDec cs

/-- Fractional digits of a rational in `[0,1)`, with fuel; stops at zero, so
for denominators dividing a power of ten (the only ones produced by decimal
parsing) the expansion is exact and has no trailing zeros. -/
def fracDigits : ℕ → ℚ → List Char
  | 0, _ => []
  | n + 1, f =>
    if f = 0 then []
    else
      let f10 := f * 10
      Char.ofNat (48 + (Rat.floor f10).toNat) :: fracDigits n (f10 - Rat.floor f10)

/-- JS number-to-string on the fragment of rationals with ten-smooth
denominators (exact decimals); matches `String(n)` there. -/
def numToString (q : ℚ) : String :=
  if q.den = 1 then toString q.num
  else
    let sgn := if q < 0 then "-" else ""
    let a := |q|
    sgn ++ toString (Rat.floor a) ++ "." ++ String.mk (fracDigits 40 (a - Rat.floor a))

/-- JS `String(v)` for the modelled values (`String({})` is
`"[object Object]"`). -/
def jsString : JVal → String
  | .vStr s => s
  | .vNum q => numToString q
  | .vBool b => if b then "true" else "false"
  | .vNull => "null"
  | .vUndefined => "undefined"
  | .vObj _ => "[object Object]"

/-- JS `Number(v)`; `none` models `NaN` (`Number({})`, `Number(undefined)`). -/
def jsNumber : JVal → Option ℚ
  | .vStr s => strToNum s
  | .vNum q => some q
  | .vBool b => some (if b then 1 else 0)
  | .vNull => some 0
  | .vUndefined => none
  | .vObj _ => none

/-- JS truthiness as used by the source (`truthy`): a string is truthy iff
non-empty, otherwise the standard boolean cast. -/
def truthy : JVal → Bool
  | .vStr s => s.length > 0
  | .vNum q => q ≠ 0
  | .vBool b => b
  | .vNull => false
  | .vUndefined => false
  | .vObj _ => true

/-- JS strict equality `===` on the modelled values. Objects compare by
reference; the two object operands reaching `===` in this code base always
come from distinct allocations, so the object case is `false`. -/
def strictEq : JVal → JVal → Bool
  | .vStr a, .vStr b => a = b
  | .vNum a, .vNum b => a = b
  | .vBool a, .vBool b => a = b
  | .vNull, .vNull => true
  | .vUndefined, .vUndefined => true
  | _, _ => false

/-- Association-list lookup by decidable key equality (first binding wins),
used for every record-typed map in the embedding. -/
def alookup {κ α : Type} [DecidableEq κ] (k : κ) : List (κ × α) → Option α
  | [] => none
  | (k', v) :: r => if k' = k then some v else alookup k r

/-- Property read `o[k]`, `undefined` when absent or when `o` is not an
object (index properties of primitive strings are outside the model). -/
def objGet (v : JVal) (k : String) : JVal :=
  match v with
  | .vObj l =>
    match alookup k l with
    | some w => w
    | none => .vUndefined
  | _ => .vUndefined

/-- Association-list update used for object writes: replace the first binding
or append. -/
def asetList (k : String) (v : JVal) : List (String × JVal) → List (String × JVal)
  | [] => [(k, v)]
  | (k', v') :: r => if k' = k then (k, v) :: r else (k', v') :: asetList k v r

/-- Source `{ ...payload, k: v }`: object spread plus one binding. Spreading a
non-object primitive contributes no enumerable properties in the cases the
watcher reaches (payloads are decoded JSON objects). -/
def objSet (v : JVal) (k : String) (w : JVal) : JVal :=
  match v with
  | .vObj l => .vObj (asetList k w l)
  | _ => .vObj [(k, w)]

end JVal

open JVal

/-! ## Global store (`GlobalEventStore` in `EventUtils.ts`)

The static two-level record `data[watchId][subject]` is modelled as an
association list keyed by the pair, threaded explicitly through the
functions that read it. -/

/-- The cross-watcher store `(watchId, subject) → value`. -/
abbrev Store := List ((String × String) × JVal)

namespace GlobalEventStore

/-- Source `GlobalEventStore.get`: `data[watchId]?.[subject]`, `undefined` when
absent. -/
def get (store : Store) (watchId subject : String) : JVal :=
  match alookup (watchId, subject) store with
  | some v => v
  | none => .vUndefined

/-- Source `GlobalEventStore.update`: upsert. -/
def update (store : Store) (watchId subject : String) (v : JVal) : Store :=
  match store with
  | [] => [((watchId, subject), v)]
  | (k, w) :: r =>
    if k = (watchId, subject) then (k, v) :: r
    else (k, w) :: update r watchId subject v

end GlobalEventStore

/-- Length bound used by the termination arguments of the scanners below. -/
theorem dropWhile_len_le {α} (p : α → Bool) (l : List α) :
    (l.dropWhile p).length ≤ l.length :=
  (List.dropWhile_sublist p).length_le

/-! ## `EventUtils`: normalization, interpolation, helpers -/

namespace EventUtils

/-- Source `EventUtils.normalizeValue`: strings `"true"`/`"false"` (case-insensitive)
become booleans, numeric-castable strings become numbers, everything else is
returned unchanged. -/
def normalizeValue (input : JVal) : JVal :=
  match input with
  | .vStr s =>
    let lc := lowerStr s
    if lc = "true" then .vBool true
    else if lc = "false" then .vBool false
    else
      match strToNum s with
      | some q => .vNum q
      | none => .vStr s
  | v => v

/-- Source `EventUtils.compareValues`: typed equality of a condition's `value`
against the extracted subject value. -/
def compareValues (expected actual : JVal) : Bool :=
  match expected with
  | .vUndefined => true
  | .vNull => true
  | .vBool b => b = truthy actual
  | .vNum q =>
    match jsNumber actual with
    | some q' => q = q'
    | none => false
  | .vStr s => s = jsString actual
  | .vObj _ => false

/-- Split a character list on a separator character; mirrors JS
`String.prototype.split` with a single-character separator. -/
def splitOnChar (sep : Char) : List Char → List (List Char)
  | [] => [[]]
  | c :: r =>
    if c = sep then [] :: splitOnChar sep r
    else
      match splitOnChar sep r with
      | h :: t => (c :: h) :: t
      | [] => [[c]]

/-- Source `EventUtils.getValueByPath` walk: one path segment at a time;
`hasOwnProperty` holds only for object keys in the model. -/
def gvpWalk : List (List Char) → JVal → JVal
  | [], cur => cur
  | p :: ps, cur =>
    match cur with
    | .vObj l =>
      match alookup (String.mk p) l with
      | some v => gvpWalk ps v
      | none => .vUndefined
    | _ => .vUndefined

/-- Source `EventUtils.getValueByPath`: dotted-path lookup into the payload;
`!path || !obj` yields `undefined`. -/
def getValueByPath (obj : JVal) (path : String) : JVal :=
  if path = "" ∨ ¬ truthy obj then .vUndefined
  else gvpWalk (splitOnChar '.' path.data) obj

/-- Accumulating loop of `EventUtils.splitByColonOutsideParens`: split on
`:` at parenthesis depth 0; `)` saturates at depth 0; the final buffer is
kept only when non-empty. -/
def splitColonGo : List Char → List Char → ℕ → List (List Char) → List (List Char)
  | [], buf, _, out => (if buf = [] then out else buf.reverse :: out).reverse
  | c :: r, buf, depth, out =>
    if c = '(' then splitColonGo r (c :: buf) (depth + 1) out
    else if c = ')' then splitColonGo r (c :: buf) (depth - 1) out
    else if c = ':' ∧ depth = 0 then splitColonGo r [] depth (buf.reverse :: out)
    else splitColonGo r (c :: buf) depth out

/-- Source `EventUtils.splitByColonOutsideParens`. -/
def splitByColonOutsideParens (input : String) : List String :=
  (splitColonGo input.data [] 0 []).map String.mk

/-- Number-token test of `EventUtils.parseBare`, the regex
`-? digits ( . digits )?` anchored on both sides. -/
def bareNumMatch (cs : List Char) : Bool :=
  let body := match cs with
    | '-' :: r => r
    | r => r
  let ip := body.takeWhile Char.isDigit
  let rest := body.dropWhile Char.isDigit
  !ip.isEmpty &&
    (rest.isEmpty ||
      (match rest with
       | '.' :: fp => !fp.isEmpty && fp.all Char.isDigit
       | _ => false))

/-- Source `EventUtils.parseBare`: `true`/`false` case-insensitively, decimal
numbers, otherwise the bare token as a string. -/
def parseBare (token : String) : JVal :=
  if lowerStr token = "true" then .vBool true
  else if lowerStr token = "false" then .vBool false
  else if bareNumMatch token.data then .vNum ((strToNum token).getD 0)
  else .vStr token

/-- Character loop of `EventUtils.parseArgs`: quoted strings push raw content
and then skip following whitespace/commas (the `skip` flag); commas split
bare tokens through `parseBare`; the trailing buffer is pushed only when its
trim is non-empty. -/
def parseArgsGo : List Char → List Char → Option Char → Bool → List JVal →
    List JVal
  | [], cur, _, _, acc =>
    let ct := trimChars cur
    (if ct = [] then acc else parseBare (String.mk ct) :: acc).reverse
  | c :: r, cur, inStr, skip, acc =>
    if skip ∧ (jsWS c ∨ c = ',') then parseArgsGo r cur inStr skip acc
    else
      match inStr with
      | none =>
        if c = '\'' ∨ c = '"' then parseArgsGo r cur (some c) false acc
        else if c = ',' then
          parseArgsGo r [] none false (parseBare (String.mk (trimChars cur)) :: acc)
        else parseArgsGo r (cur ++ [c]) none false acc
      | some q =>
        if c = q then
          parseArgsGo r [] none true (JVal.vStr (String.mk cur) :: acc)
        else parseArgsGo r (cur ++ [c]) (some q) false acc

/-- Source `EventUtils.parseArgs`: `null`/blank argument text yields no arguments. -/
def parseArgs (argStr : Option String) : List JVal :=
  match argStr with
  | none => []
  | some s => if jsTrim s = "" then [] else parseArgsGo s.data [] none false []

/-- Source `S` in `applyHelper`: `x == null ? "" : String(x)`. -/
def helperS (x : JVal) : String :=
  match x with
  | .vNull => ""
  | .vUndefined => ""
  | v => jsString v

/-- Source `N(args[i] ?? dflt)` in `applyHelper`; `none` models `NaN`. -/
def argN (args : List JVal) (i : ℕ) (dflt : ℚ) : Option ℚ :=
  jsNumber (args.getD i (.vNum dflt))

/-- JS `ToIntegerOrInfinity` on a finite rational: truncation toward zero. -/
def intTrunc (q : ℚ) : ℤ :=
  if q ≥ 0 then Rat.floor q else -(Rat.floor (-q))

/-- Clamp a (possibly `NaN`) index into `[0, n]` as `String.prototype.substring`
does: `NaN` and negatives to `0`, beyond the end to `n`. -/
def clampIdx (x : Option ℚ) (n : ℕ) : ℕ :=
  match x with
  | none => 0
  | some q => if q ≤ 0 then 0 else min (intTrunc q).toNat n

/-- JS `s.substring(a, b)`: clamp both ends and swap when out of order. -/
def jsSubstring (s : String) (a b : Option ℚ) : String :=
  let n := s.length
  let ia := clampIdx a n
  let ib := clampIdx b n
  String.mk ((s.data.drop (min ia ib)).take (max ia ib - min ia ib))

/-- Relative index of JS `slice`: negatives count from the end. -/
def sliceIdx (x : Option ℚ) (n : ℕ) : ℕ :=
  match x with
  | none => 0
  | some q =>
    if q < 0 then ((n : ℤ) + intTrunc q).toNat
    else min (intTrunc q).toNat n

/-- JS `s.slice(a, b)` with `b` possibly absent. -/
def jsSlice (s : String) (a : Option ℚ) (b : Option (Option ℚ)) : String :=
  let n := s.length
  let ia := sliceIdx a n
  let ib := match b with
    | none => n
    | some x => sliceIdx x n
  String.mk ((s.data.drop ia).take (ib - ia))

/-- Take `k` characters from the cyclic repetition of `orig` (continuing from
`cur`); used for the padding fill string. -/
def cycleGo : ℕ → List Char → List Char → List Char
  | 0, _, _ => []
  | Nat.succ k, cs, orig =>
    match cs with
    | [] =>
      match orig with
      | [] => []
      | o :: os => o :: cycleGo k os (o :: os)
    | c :: rest => c :: cycleGo k rest orig

/-- JS `ToLength` of a possibly-`NaN` target length. -/
def padTarget (x : Option ℚ) : ℕ :=
  match x with
  | none => 0
  | some q => if q ≤ 0 then 0 else (intTrunc q).toNat

/-- JS `s.padStart(n, fill)`: no-op when the target is not larger or the fill
is empty. -/
def jsPadStart (s : String) (target : Option ℚ) (fill : String) : String :=
  let t := padTarget target
  if t ≤ s.length ∨ fill = "" then s
  else String.mk (cycleGo (t - s.length) fill.data fill.data) ++ s

/-- JS `s.padEnd(n, fill)`. -/
def jsPadEnd (s : String) (target : Option ℚ) (fill : String) : String :=
  let t := padTarget target
  if t ≤ s.length ∨ fill = "" then s
  else s ++ String.mk (cycleGo (t - s.length) fill.data fill.data)

/-- JS `Math.round`: half toward positive infinity. -/
def jsRound (q : ℚ) : ℚ := (Rat.floor (q + 1 / 2) : ℚ)

/-- Zero-pad a natural to `f` digits. -/
def padLeftZeros (f : ℕ) (m : ℕ) : String :=
  let s := toString m
  String.mk (List.replicate (f - s.length) '0') ++ s

/-- JS `x.toFixed(f)` for `f ∈ [0, 100]`: sign split off first, then the
magnitude rounded half-up to `f` fractional digits. -/
def toFixedFmt (x : ℚ) (f : ℕ) : String :=
  let sgn := if x < 0 then "-" else ""
  let n := (Rat.floor (|x| * (10 : ℚ) ^ f + 1 / 2)).toNat
  if f = 0 then sgn ++ toString n
  else sgn ++ toString (n / 10 ^ f) ++ "." ++ padLeftZeros f (n % 10 ^ f)

/-- Unit-scaling loop of the `bytes` helper: divide by 1024 while at least
1024 and units remain (at most five steps). -/
def bytesLoop : ℕ → ℚ → ℕ → ℚ × ℕ
  | 0, n, u => (n, u)
  | Nat.succ k, n, u => if n ≥ 1024 then bytesLoop k (n / 1024) (u + 1) else (n, u)

/-- Units of the `bytes` helper. -/
def bytesUnit (u : ℕ) : String :=
  (["B", "KiB", "MiB", "GiB", "TiB", "PiB"].getD u "PiB")

/-- Identifier-start character of the helper-name regex. -/
def isIdentStart (c : Char) : Bool :=
  ('a' ≤ c ∧ c ≤ 'z') ∨ ('A' ≤ c ∧ c ≤ 'Z') ∨ c = '_'

/-- Identifier-continuation character of the helper-name regex. -/
def isIdentCont (c : Char) : Bool :=
  isIdentStart c ∨ ('0' ≤ c ∧ c ≤ '9')

/-- The anchored helper regex `ident \s* ( "(" args ")" )?`: returns the name
and the optional raw argument text, `none` when the spec does not match.
The argument text may not contain a line break (the regex `.` does not match
one). -/
def helperMatch (cs : List Char) : Option (String × Option String) :=
  match cs with
  | [] => none
  | c :: r =>
    if isIdentStart c then
      let nm := String.mk (c :: r.takeWhile isIdentCont)
      let rest := (r.dropWhile isIdentCont).dropWhile jsWS
      match rest with
      | [] => some (nm, none)
      | '(' :: more =>
        match more.reverse with
        | ')' :: midRev =>
          let mid := midRev.reverse
          if mid.any (fun ch => ch = '\n' ∨ ch = '\r') then none
          else some (nm, some (String.mk mid))
        | _ => none
      | _ => none
    else none

/-- Dispatch table of `EventUtils.applyHelper`. Unknown helpers are a no-op.
Deviations from the host floats, each unreachable from the theorems below:
`round` with a non-integer or `NaN` precision and `toFixed`/`pct` with an
out-of-range precision return the input unchanged instead of a float-rounded
value or a `RangeError`. -/
def helperDispatch (name : String) (args : List JVal) (value : JVal) : JVal :=
  if name = "upper" then .vStr (upperStr (helperS value))
  else if name = "lower" then .vStr (lowerStr (helperS value))
  else if name = "trim" then .vStr (jsTrim (helperS value))
  else if name = "len" then .vNum ((helperS value).length)
  else if name = "sub" then
    let start := argN args 0 0
    let len := argN args 1 0
    let sum : Option ℚ := match start, len with
      | some a, some b => some (a + b)
      | _, _ => none
    .vStr (jsSubstring (helperS value) start sum)
  else if name = "slice" then
    let start := argN args 0 0
    let stop : Option (Option ℚ) :=
      match args.get? 1 with
      | some a => some (jsNumber a)
      | none => none
    .vStr (jsSlice (helperS value) start stop)
  else if name = "cat" then
    .vStr (helperS value ++ helperS (args.getD 0 (.vStr "")))
  else if name = "padStart" then
    let fill := match args.get? 1 with
      | some a => helperS a
      | none => " "
    .vStr (jsPadStart (helperS value) (argN args 0 0) fill)
  else if name = "padEnd" then
    let fill := match args.get? 1 with
      | some a => helperS a
      | none => " "
    .vStr (jsPadEnd (helperS value) (argN args 0 0) fill)
  else if name = "round" then
    match jsNumber value, argN args 0 0 with
    | some num, some dec =>
      if dec.den = 1 then
        let factor : ℚ := (10 : ℚ) ^ dec.num
        .vNum (jsRound (num * factor) / factor)
      else value
    | _, _ => value
  else if name = "toFixed" then
    match jsNumber value with
    | some num =>
      let d : ℤ := match argN args 0 0 with
        | some q => intTrunc q
        | none => 0
      if 0 ≤ d ∧ d ≤ 100 then .vStr (toFixedFmt num d.toNat) else value
    | none => value
  else if name = "bytes" then
    match jsNumber value with
    | some num =>
      let p := bytesLoop 5 num 0
      .vStr (toFixedFmt p.1 (if p.1 ≥ 10 ∨ p.1.den = 1 then 0 else 1) ++ " "
        ++ bytesUnit p.2)
    | none => value
  else if name = "pct" then
    match jsNumber value with
    | some num =>
      let d : ℤ := match argN args 0 0 with
        | some q => intTrunc q
        | none => 0
      if 0 ≤ d ∧ d ≤ 100 then .vStr (toFixedFmt num d.toNat ++ "%") else value
    | none => value
  else value

/-- Source `EventUtils.applyHelper`: parse the helper spec against the anchored
regex; a non-matching spec is a no-op. -/
def applyHelper (fnSpec : String) (value : JVal) : JVal :=
  match helperMatch fnSpec.data with
  | none => value
  | some (name, argText) => helperDispatch name (parseArgs argText) value

/-- Minimal JSON string escaping (quote and backslash). -/
def jsonEscape (s : String) : String :=
  String.mk (s.data.foldr
    (fun c acc => (if c = '"' ∨ c = '\\' then ['\\', c] else [c]) ++ acc) [])

mutual

/-- Source `JSON.stringify` on the modelled values (object members with `undefined`
values are omitted, as in JS). -/
def jsonStringify : JVal → String
  | .vStr s => "\"" ++ jsonEscape s ++ "\""
  | .vNum q => numToString q
  | .vBool b => if b then "true" else "false"
  | .vNull => "null"
  | .vUndefined => "undefined"
  | .vObj l =>
    String.singleton lbraceC ++ String.intercalate "," (jsonFields l)
      ++ String.singleton rbraceC

/-- Member list of `JSON.stringify` on an object. -/
def jsonFields : List (String × JVal) → List String
  | [] => []
  | (k, v) :: r =>
    match v with
    | .vUndefined => jsonFields r
    | v => ("\"" ++ jsonEscape k ++ "\":" ++ jsonStringify v) :: jsonFields r

end

/-- List prefix test (by characters). -/
def startsWithChars : List Char → List Char → Bool
  | [], _ => true
  | _ :: _, [] => false
  | p :: ps, c :: cs => p = c && startsWithChars ps cs

/-- Undefined test. -/
def isUndefined : JVal → Bool
  | .vUndefined => true
  | _ => false

/-- Helper chain of `resolvePlaceholder`: apply each `:fn(...)` in turn. -/
def applyChain : List String → JVal → JVal
  | [], v => v
  | t :: ts, v => applyChain ts (applyHelper (jsTrim t) v)

/-- The `store.` branch of `resolvePlaceholder`: the anchored regex
`store . <no-dot, non-empty> . <non-empty rest>`; a non-matching spec yields
the empty string. -/
def storePlaceholder (spec : String) (store : Store) : JVal :=
  let rest := spec.data.drop 6
  let w := rest.takeWhile (fun c => c ≠ '.')
  match rest.dropWhile (fun c => c ≠ '.') with
  | '.' :: s =>
    if w = [] ∨ s = [] then .vStr ""
    else GlobalEventStore.get store (String.mk w) (String.mk s)
  | _ => .vStr ""

/-- Source `EventUtils.resolvePlaceholder`: `store.` reads, the `value` binding, or a
dotted payload path, followed by the helper chain. -/
def resolvePlaceholder (spec : String) (payload : JVal) (store : Store) : JVal :=
  if startsWithChars "store.".data spec.data then storePlaceholder spec store
  else
    match splitByColonOutsideParens spec with
    | [] => .vStr ""
    | head :: chain =>
      let h := jsTrim head
      let v0 :=
        if h = "value" then
          if truthy payload ∧ ¬ isUndefined (objGet payload "__watcher_value") then
            objGet payload "__watcher_value"
          else .vUndefined
        else getValueByPath payload h
      applyChain chain v0

/-- Replacement text of one interpolated placeholder: objects (and `null`,
whose `typeof` is `"object"`) print as JSON, `undefined` as the empty string,
anything else via `String(...)`. -/
def interpEmit (result : JVal) : List Char :=
  match result with
  | .vObj l => (jsonStringify (.vObj l)).data
  | .vNull => (jsonStringify .vNull).data
  | .vUndefined => []
  | r => (jsString r).data

/-- Split at the first closing brace: `some (inside, after)` when one exists.
Mirrors the `[^}]+` body of the interpolation regex. -/
def findRBrace : List Char → Option (List Char × List Char)
  | [] => none
  | c :: r =>
    if c = rbraceC then some ([], r)
    else
      match findRBrace r with
      | some (ins, aft) => some (c :: ins, aft)
      | none => none

/-- The remainder returned by `findRBrace` is strictly shorter. -/
theorem findRBrace_len :
    ∀ {l ins aft : List Char}, findRBrace l = some (ins, aft) →
      aft.length < l.length := by
  intro l
  induction l with
  | nil => intro ins aft h; simp [findRBrace] at h
  | cons c r ih =>
    intro ins aft h
    by_cases hc : c = rbraceC
    · simp [findRBrace, hc] at h
      simp [← h.2]
    · simp [findRBrace, hc] at h
      rcases hfr : findRBrace r with _ | ⟨ins', aft'⟩
      · rw [hfr] at h; simp at h
      · rw [hfr] at h
        simp at h
        have h2 := ih hfr
        rw [← h.2]
        simp
        omega

/-- Scanner of `EventUtils.interpolate`, the global regex replace of
`$\x7b [^\x7d]+ \x7d`: leftmost match, at least one character inside, cut at
the first closing brace; on a failed match the scan advances one character.
The fuel only serves structural recursion: every step consumes at least one
character, so the initial fuel `length + 1` is never exhausted. -/
def interpGo (payload : JVal) (store : Store) : ℕ → List Char → List Char
  | 0, l => l
  | _ + 1, [] => []
  | _ + 1, [c] => [c]
  | fuel + 1, c :: b :: rest =>
    if c = dollarC ∧ b = lbraceC then
      match findRBrace rest with
      | some (ins, aft) =>
        if ins = [] then c :: interpGo payload store fuel (b :: rest)
        else
          interpEmit (resolvePlaceholder (jsTrim (String.mk ins)) payload store)
            ++ interpGo payload store fuel aft
      | none => c :: interpGo payload store fuel (b :: rest)
    else c :: interpGo payload store fuel (b :: rest)

/-- Source `EventUtils.interpolate`. A non-string template is returned unchanged in
the source; templates are strings throughout this embedding, and the falsy
template `""` also maps to itself. -/
def interpolate (template : String) (payload : JVal) (store : Store) : String :=
  String.mk (interpGo payload store (template.data.length + 1) template.data)

/-! ## `EventUtils`: expression engine -/

/-- Two-character operator tokens `== != >= <= && ||`. -/
def isTwoOp (a b : Char) : Bool :=
  (a = '=' ∧ b = '=') ∨ (a = '!' ∧ b = '=') ∨ (a = '>' ∧ b = '=') ∨
  (a = '<' ∧ b = '=') ∨ (a = '&' ∧ b = '&') ∨ (a = '|' ∧ b = '|')

/-- Single-character tokens `( ) > < !`. -/
def isSingleTok (c : Char) : Bool :=
  c = '(' ∨ c = ')' ∨ c = '>' ∨ c = '<' ∨ c = '!'

/-- Characters allowed in a bare word: everything except whitespace and
`( ) ! & | = < >`. -/
def isBareChar (c : Char) : Bool :=
  !(jsWS c ∨ c = ')' ∨ c = '(' ∨ c = '!' ∨ c = '&' ∨ c = '|' ∨ c = '=' ∨
    c = '<' ∨ c = '>')

/-- Brace-depth scan of a `$\x7b...\x7d` token in the tokenizer: consume
until the depth returns to zero or the input ends. -/
def braceDepthScan : ℕ → List Char → List Char × List Char
  | _, [] => ([], [])
  | depth, c :: r =>
    if depth = 0 then ([], c :: r)
    else
      let depth' := if c = lbraceC then depth + 1
        else if c = rbraceC then depth - 1 else depth
      let p := braceDepthScan depth' r
      (c :: p.1, p.2)

/-- The remainder of `braceDepthScan` is no longer than the input. -/
theorem braceDepthScan_len :
    ∀ (d : ℕ) (l : List Char), (braceDepthScan d l).2.length ≤ l.length := by
  intro d l
  induction l generalizing d with
  | nil => simp [braceDepthScan]
  | cons c r ih =>
    by_cases hd : d = 0
    · simp [braceDepthScan, hd]
    · simp only [braceDepthScan, hd, if_false]
      have := ih (if c = lbraceC then d + 1 else if c = rbraceC then d - 1 else d)
      simp only [List.length_cons]
      omega

/-- Tokenizer loop of `EventUtils.tokenize`. `none` models the source's
non-termination: at a position holding a stray `&`, `|` or `=` (one that does
not begin a recognized two-character operator) the `while` loop makes no
progress and spins forever. The fuel only serves structural recursion: every
step consumes at least one character, so the initial fuel `length + 1` is
never exhausted. -/
def tokenizeGo : ℕ → List Char → Option (List String)
  | 0, _ => none
  | _ + 1, [] => some []
  | fuel + 1, c :: cs =>
    if jsWS c then tokenizeGo fuel cs
    else
      match cs with
      | c2 :: rest =>
        if isTwoOp c c2 then
          (tokenizeGo fuel rest).map (fun ts => String.mk [c, c2] :: ts)
        else if isSingleTok c then
          (tokenizeGo fuel (c2 :: rest)).map (fun ts => String.singleton c :: ts)
        else if c = dollarC ∧ c2 = lbraceC then
          (tokenizeGo fuel (braceDepthScan 1 rest).2).map
            (fun ts => String.mk (c :: c2 :: (braceDepthScan 1 rest).1) :: ts)
        else if c = '\'' ∨ c = '"' then
          match (c2 :: rest).dropWhile (fun ch => ch ≠ c) with
          | _ :: rest2 =>
            (tokenizeGo fuel rest2).map
              (fun ts =>
                String.mk (c :: (c2 :: rest).takeWhile (fun ch => ch ≠ c) ++ [c])
                  :: ts)
          | [] => some [String.mk (c :: (c2 :: rest).takeWhile (fun ch => ch ≠ c))]
        else if isBareChar c then
          (tokenizeGo fuel ((c :: c2 :: rest).dropWhile isBareChar)).map
            (fun ts => String.mk ((c :: c2 :: rest).takeWhile isBareChar) :: ts)
        else none
      | [] =>
        if isSingleTok c then some [String.singleton c]
        else if c = '\'' ∨ c = '"' then some [String.singleton c]
        else if isBareChar c then some [String.singleton c]
        else none

/-- Source `EventUtils.tokenize` (total modulo the stray-character divergence). -/
def tokenize (expr : String) : Option (List String) :=
  tokenizeGo (expr.data.length + 1) expr.data

/-- Operator precedence of `toRPN`. -/
def prec (t : String) : Option ℕ :=
  if t = "!" then some 5
  else if t = "==" ∨ t = "!=" ∨ t = ">=" ∨ t = "<=" ∨ t = ">" ∨ t = "<" then
    some 4
  else if t = "&&" then some 3
  else if t = "||" then some 2
  else none

/-- Operator test of `toRPN`. -/
def isOp (t : String) : Bool := (prec t).isSome

/-- Pop the operator stack up to (and dropping) the matching `(`. -/
def popUntilParen : List String → List String × List String
  | [] => ([], [])
  | t :: r =>
    if t = "(" then ([], r)
    else
      let p := popUntilParen r
      (t :: p.1, p.2)

/-- Pop operators bound at least as tightly as `t` (`!` is right-associative,
everything else left-associative). -/
def popOpsGe (t : String) : List String → List String × List String
  | [] => ([], [])
  | top :: r =>
    match prec top with
    | none => ([], top :: r)
    | some pTop =>
      let cond := if t = "!" then (prec t).getD 0 < pTop else (prec t).getD 0 ≤ pTop
      if cond then
        let p := popOpsGe t r
        (top :: p.1, p.2)
      else ([], top :: r)

/-- Shunting-yard loop of `EventUtils.toRPN`. -/
def toRPNGo : List String → List String → List String → List String
  | [], out, ops => out ++ ops
  | t :: ts, out, ops =>
    if t = "(" then toRPNGo ts out (t :: ops)
    else if t = ")" then
      let p := popUntilParen ops
      toRPNGo ts (out ++ p.1) p.2
    else if isOp t then
      let p := popOpsGe t ops
      toRPNGo ts (out ++ p.1) (t :: p.2)
    else toRPNGo ts (out ++ [t]) ops

/-- Source `EventUtils.toRPN`. -/
def toRPN (tokens : List String) : List String := toRPNGo tokens [] []

/-- Popping an empty operand stack yields `undefined` (JS `Array.pop`). -/
def rpnPop : List JVal → JVal × List JVal
  | [] => (.vUndefined, [])
  | v :: r => (v, r)

/-- Source `EventUtils.compareOp`: equality compares stringified normalized forms;
ordering compares numerically when both operands are numeric-castable and
neither is the empty string, `null`, or a boolean, otherwise by string
order. -/
def compareOp (a : JVal) (op : String) (b : JVal) : Bool :=
  let na := jsNumber a
  let nb := jsNumber b
  let aIsNum := na.isSome && !strictEq a (.vStr "") && !strictEq a .vNull &&
    !strictEq a (.vBool true) && !strictEq a (.vBool false)
  let bIsNum := nb.isSome && !strictEq b (.vStr "") && !strictEq b .vNull &&
    !strictEq b (.vBool true) && !strictEq b (.vBool false)
  if op = "==" ∨ op = "!=" then
    let eq := jsString (normalizeValue a) = jsString (normalizeValue b)
    if op = "==" then eq else !eq
  else if aIsNum && bIsNum then
    match na, nb with
    | some x, some y =>
      if op = ">" then x > y
      else if op = "<" then x < y
      else if op = ">=" then x ≥ y
      else if op = "<=" then x ≤ y
      else false
    | _, _ => false
  else
    let sa := jsString a
    let sb := jsString b
    if op = ">" then sb < sa
    else if op = "<" then sa < sb
    else if op = ">=" then sb ≤ sa
    else if op = "<=" then sa ≤ sb
    else false

/-- Source `EventUtils.resolveOperand`: `value`, placeholder, boolean, quoted string,
number, or bare word as string literal. -/
def resolveOperand (token : String) (payload : JVal) (store : Store) : JVal :=
  let t := jsTrim token
  if t = "value" then objGet payload "__watcher_value"
  else if startsWithChars [dollarC, lbraceC] t.data ∧
      t.data.getLast? = some rbraceC then
    resolvePlaceholder (String.mk ((t.data.drop 2).dropLast)) payload store
  else if lowerStr t = "true" then .vBool true
  else if lowerStr t = "false" then .vBool false
  else if (startsWithChars ['"'] t.data ∧ t.data.getLast? = some '"') ∨
      (startsWithChars ['\''] t.data ∧ t.data.getLast? = some '\'') then
    .vStr (String.mk ((t.data.drop 1).dropLast))
  else if (strToNum t).isSome then .vNum ((strToNum t).getD 0)
  else .vStr t

/-- One step of the RPN stack machine of `EventUtils.evalRPN`. -/
def evalStep (payload : JVal) (store : Store) (st : List JVal) (t : String) :
    List JVal :=
  if t = "!" then
    let p := rpnPop st
    .vBool (!truthy p.1) :: p.2
  else if t = "&&" then
    let pb := rpnPop st
    let pa := rpnPop pb.2
    .vBool (truthy pa.1 && truthy pb.1) :: pa.2
  else if t = "||" then
    let pb := rpnPop st
    let pa := rpnPop pb.2
    .vBool (truthy pa.1 || truthy pb.1) :: pa.2
  else if t = "==" ∨ t = "!=" ∨ t = ">=" ∨ t = "<=" ∨ t = ">" ∨ t = "<" then
    let pb := rpnPop st
    let pa := rpnPop pb.2
    .vBool (compareOp pa.1 t pb.1) :: pa.2
  else resolveOperand t payload store :: st

/-- Source `EventUtils.evalRPN`: fold the stack machine and take the truthiness of
the final pop. -/
def evalRPN (rpn : List String) (payload : JVal) (store : Store) : Bool :=
  truthy (rpnPop (rpn.foldl (evalStep payload store) [])).1

/-- Source `EventUtils.evaluateExpression`: bind `value` into the payload, tokenize,
convert to RPN, evaluate. `none` models the tokenizer's divergence; every
other outcome is the boolean the source returns. -/
def evaluateExpression (expr : String) (actual : JVal) (payload : JVal)
    (store : Store) : Option Bool :=
  (tokenize expr).map
    (fun tks => evalRPN (toRPN tks) (objSet payload "__watcher_value" actual) store)

end EventUtils

open EventUtils

/-! ## `Events.ts` data model and `Watcher.ts` pipeline -/

/-- Source `ActiveHoursRange` (`from`/`to` are keywords in Lean and carry a `T`
suffix here). -/
structure ActiveHoursRange where
  fromT : String
  toT : String
deriving DecidableEq

/-- Source `DependencyDef`. -/
structure DependencyDef where
  path : String
  state : JVal
deriving DecidableEq

/-- Source `EventCondition`: absent optional fields are `none` (`value` uses the
JS `undefined`). -/
structure EventCondition where
  value : JVal := .vUndefined
  condition : Option String := none
  log : String := ""
  message : String := ""
  severity : Option String := none
  warningSeverity : Option String := none
  warningThreshold : Option ℚ := none
  warningMessage : Option String := none
  reset : Option ℚ := none
  edge : Option String := none
  cooldownSec : Option ℚ := none
  key : Option String := none
deriving DecidableEq

/-- Source `EventItem`. -/
structure EventItem where
  subject : String := ""
  default : JVal := .vUndefined
  activeHours : Option (List ActiveHoursRange) := none
  dependencies : Option (List DependencyDef) := none
  dynamic : Bool := false
  stateKey : Option String := none
  conditions : List EventCondition := []
deriving DecidableEq

/-- Source `ConditionState` of `Watcher.ts`: per-condition, per-source edge and
cooldown tracking. -/
structure ConditionState where
  prevMatch : Bool := false
  lastSentAt : ℚ := 0
deriving DecidableEq

/-- A warning timer armed by `setTimeout`, modelled by the data captured in
its closure: delay, the value the warning is about, and the condition
snapshot (`safeCond`) with the warning message interpolated at arm time. -/
structure WarnTimer where
  delaySec : ℚ
  warningValue : String
  snapshot : EventCondition
deriving DecidableEq

/-- Source `EventStatus` of `Watcher.ts`: one stateful bucket. Timers are modelled
symbolically (`none` = not armed). -/
structure EventStatus where
  lastValue : String := ""
  lastHandledValue : Option String := none
  warningTimeout : Option WarnTimer := none
  resetTimeout : Option ℚ := none
  warningDone : Bool := false
deriving DecidableEq

/-- The mutable state of one watcher while handling messages, plus the
notifications handed to `MessageService.sendNotifications` in order
(message text and severity). -/
structure WatcherState where
  eventStatus : List (String × EventStatus) := []
  conditionState : List (String × ConditionState) := []
  store : Store := []
  sent : List (String × String) := []
deriving DecidableEq

/-- Association update keyed by strings (replace the first binding or
append), used for the watcher's record-typed maps. -/
def aput {α : Type} (k : String) (v : α) : List (String × α) → List (String × α)
  | [] => [(k, v)]
  | (k', w) :: r => if k' = k then (k, v) :: r else (k', w) :: aput k v r

namespace Watcher

/-- Source `String(x ?? "")` of a template literal piece. -/
def nullishStr (v : JVal) : String :=
  match v with
  | .vNull => ""
  | .vUndefined => ""
  | v => jsString v

/-- Source `Watcher.computeConditionKey`: watcher id, subject, condition index and
a source key chosen through a JS truthiness chain — the interpolated
`cond.key` when non-empty, else the interpolated `event.stateKey` when
non-empty, else `host:path` when `payload.tags` exists and at least one of
`tags.host`/`tags.path` is truthy, else the event subject. -/
def computeConditionKey (messageListId : String) (event : EventItem)
    (cond : EventCondition) (condIdx : ℕ) (payload : JVal) (store : Store) :
    String :=
  let b1 := match cond.key with
    | some k => if k ≠ "" then interpolate k payload store else ""
    | none => ""
  let b2 := match event.stateKey with
    | some k => if k ≠ "" then interpolate k payload store else ""
    | none => ""
  let tags := objGet payload "tags"
  let b3 :=
    if truthy tags ∧ (truthy (objGet tags "host") ∨ truthy (objGet tags "path"))
    then nullishStr (objGet tags "host") ++ ":" ++ nullishStr (objGet tags "path")
    else event.subject
  let base := if b1 ≠ "" then b1 else if b2 ≠ "" then b2 else b3
  messageListId ++ "::" ++ event.subject ++ "::" ++ toString condIdx ++ "::" ++ base

/-- Source `Watcher.shouldNotifyByEdgeCooldown`: the match-path suppression step.
Load (or default-create) the condition state; `rising` allows only on a
previous non-match and `prevMatch` becomes true unconditionally; an active
cooldown clears the allowance; `lastSentAt` is set to now exactly when the
final allowance is true. Returns the decision and the updated map. -/
def shouldNotifyByEdgeCooldown (messageListId : String) (event : EventItem)
    (cond : EventCondition) (condIdx : ℕ) (payload : JVal) (store : Store)
    (condState : List (String × ConditionState)) (nowEpochSec : ℚ) :
    Bool × List (String × ConditionState) :=
  let edge := cond.edge.getD "level"
  let cooldown := cond.cooldownSec.getD 0
  let key := computeConditionKey messageListId event cond condIdx payload store
  let st := (alookup key condState).getD ⟨false, 0⟩
  let allow0 := if edge = "rising" then !st.prevMatch else true
  let allow1 :=
    if allow0 ∧ cooldown > 0 ∧ nowEpochSec - st.lastSentAt < cooldown then false
    else allow0
  let st' : ConditionState :=
    ⟨true, if allow1 then nowEpochSec else st.lastSentAt⟩
  (allow1, aput key st' condState)

/-- The non-match path for a `rising` condition in the message handler:
reset `prevMatch` for the computed source key, leaving `lastSentAt` as it
was (or `0` on first creation). -/
def markConditionNotMatched (messageListId : String) (event : EventItem)
    (cond : EventCondition) (condIdx : ℕ) (payload : JVal) (store : Store)
    (condState : List (String × ConditionState)) :
    List (String × ConditionState) :=
  let ckey := computeConditionKey messageListId event cond condIdx payload store
  let st := (alookup ckey condState).getD ⟨false, 0⟩
  aput ckey ⟨false, st.lastSentAt⟩ condState

/-- Source `Watcher.computeStatusKey`: `none` for dynamic events; the interpolated
`stateKey` joined with the subject when a non-blank `stateKey` is present;
otherwise the subject. -/
def computeStatusKey (event : EventItem) (payload : JVal) (store : Store) :
    Option String :=
  if event.dynamic then none
  else
    match event.stateKey with
    | some k =>
      if k ≠ "" ∧ jsTrim k ≠ "" then
        some (interpolate k payload store ++ "::" ++ event.subject)
      else some event.subject
    | none => some event.subject

/-- Source `HH:MM` to minutes; `none` models the `NaN` produced by a malformed
part. -/
def hmToMinutes (s : String) : Option ℚ :=
  let parts := (splitOnChar ':' s.data).map String.mk
  let h := match parts.get? 0 with
    | some p => strToNum p
    | none => none
  let m := match parts.get? 1 with
    | some p => strToNum p
    | none => none
  match h, m with
  | some hq, some mq => some (hq * 60 + mq)
  | _, _ => none

/-- Source `≤` on possibly-`NaN` minute counts: any comparison against `NaN` is
false. -/
def optLe : Option ℚ → Option ℚ → Bool
  | some a, some b => a ≤ b
  | _, _ => false

/-- One `activeHours` range: inclusive when `from ≤ to`, wrapping midnight
otherwise. -/
def rangeActive (minutes : ℚ) (r : ActiveHoursRange) : Bool :=
  let fromMin := hmToMinutes r.fromT
  let toMin := hmToMinutes r.toT
  if optLe fromMin toMin then
    optLe fromMin (some minutes) && optLe (some minutes) toMin
  else
    optLe fromMin (some minutes) || optLe (some minutes) toMin

/-- Source `Watcher.isInActiveHours` with the current local minute count passed
explicitly. -/
def isInActiveHours (event : EventItem) (nowMinutes : ℚ) : Bool :=
  match event.activeHours with
  | none => true
  | some hs => if hs.length = 0 then true else hs.any (rangeActive nowMinutes)

/-- One dependency of `Watcher.dependenciesSatisfied`: the path must split on
`.` into exactly two parts, and the normalized store value must be strictly
equal to the normalized declared state. -/
def depSatisfied (store : Store) (dep : DependencyDef) : Bool :=
  match (splitOnChar '.' dep.path.data).map String.mk with
  | [watchId, subject] =>
    strictEq (normalizeValue (GlobalEventStore.get store watchId subject))
      (normalizeValue dep.state)
  | _ => false

/-- Source `Watcher.dependenciesSatisfied`. -/
def dependenciesSatisfied (event : EventItem) (store : Store) : Bool :=
  match event.dependencies with
  | none => true
  | some deps => deps.all (depSatisfied store)

/-- Condition matching in the message handler: a non-blank `condition`
string runs the expression engine, otherwise `compareValues` against the
extracted value. `none` models a diverging expression evaluation. -/
def condMatched (cond : EventCondition) (actual : JVal) (payload : JVal)
    (store : Store) : Option Bool :=
  match cond.condition with
  | some c =>
    if jsTrim c ≠ "" then evaluateExpression c actual payload store
    else some (compareValues cond.value actual)
  | none => some (compareValues cond.value actual)

/-- Source `userControls` in the message handler: a truthy non-`"level"` `edge` or a
truthy positive `cooldownSec`. -/
def condUserControls (cond : EventCondition) : Bool :=
  (match cond.edge with
   | some e => e ≠ "" && e ≠ "level"
   | none => false) ||
  (match cond.cooldownSec with
   | some c => c ≠ 0 && decide (c > 0)
   | none => false)

/-- Truthiness of the nullable `statusKey`. -/
def skTruthy : Option String → Bool
  | some s => s ≠ ""
  | none => false

/-- The stateful (non-dynamic) notification dispatch for a matching,
non-suppressed condition: without user-declared edge/cooldown controls,
legacy duplicate suppression against the bucket's `lastValue`, warning and
reset timer re-evaluation, and `lastHandledValue` recording; with them, an
unconditional send. -/
def notifyStateful (cond : EventCondition) (statusKey : Option String)
    (valStr msgText : String) (payload : JVal) (state : WatcherState) :
    WatcherState :=
  if !condUserControls cond ∧ skTruthy statusKey then
    let k := statusKey.getD ""
    let st := (alookup k state.eventStatus).getD {}
    let sent' :=
      if st.lastValue ≠ valStr then
        state.sent ++ [(msgText, cond.severity.getD "info")]
      else state.sent
    let st1 :=
      match cond.warningThreshold with
      | some w =>
        if w ≠ 0 ∧ w > 0 then
          match st.warningTimeout with
          | none =>
            let wmsg :=
              match cond.warningMessage with
              | some wm =>
                if wm ≠ "" then interpolate wm payload state.store
                else cond.message
              | none => cond.message
            let safeCond : EventCondition := { cond with warningMessage := some wmsg }
            { st with warningTimeout := some ⟨w, valStr, safeCond⟩ }
          | some t => { st with warningTimeout := some t }
        else { st with warningTimeout := none, warningDone := false }
      | none => { st with warningTimeout := none, warningDone := false }
    let rt : Option ℚ :=
      match cond.reset with
      | some r => if r ≠ 0 ∧ r > 0 then some r else none
      | none => none
    let st2 := { st1 with resetTimeout := rt }
    let st3 := { st2 with lastHandledValue := some valStr }
    { state with eventStatus := aput k st3 state.eventStatus, sent := sent' }
  else
    { state with sent := state.sent ++ [(msgText, cond.severity.getD "info")] }

/-- One condition of the message handler: match, the `rising` non-match
reset, the edge/cooldown gate, then dynamic or stateful dispatch. -/
def processCondition (messageListId : String) (event : EventItem)
    (statusKey : Option String) (actual : JVal) (valStr : String)
    (payload : JVal) (nowEpochSec : ℚ) (state : WatcherState)
    (cond : EventCondition) (condIdx : ℕ) : Option WatcherState :=
  match condMatched cond actual payload state.store with
  | none => none
  | some matched =>
    let state1 :=
      if !matched ∧ cond.edge = some "rising" then
        { state with conditionState := (markConditionNotMatched messageListId event cond condIdx payload state.store state.conditionState) }
      else state
    if !matched then some state1
    else
      let msgText := interpolate cond.message payload state1.store
      let p := shouldNotifyByEdgeCooldown messageListId event cond condIdx
        payload state1.store state1.conditionState nowEpochSec
      let state2 := { state1 with conditionState := p.2 }
      if !p.1 then some state2
      else if event.dynamic then
        some { state2 with sent := state2.sent ++ [(msgText, cond.severity.getD "info")] }
      else some (notifyStateful cond statusKey valStr msgText payload state2)

/-- The `forEach` over a non-skipped event's conditions, with the running
index. -/
def processConditions (messageListId : String) (event : EventItem)
    (statusKey : Option String) (actual : JVal) (valStr : String)
    (payload : JVal) (nowEpochSec : ℚ) :
    WatcherState → List EventCondition → ℕ → Option WatcherState
  | state, [], _ => some state
  | state, c :: cs, i =>
    match processCondition messageListId event statusKey actual valStr payload
        nowEpochSec state c i with
    | none => none
    | some state' =>
      processConditions messageListId event statusKey actual valStr payload
        nowEpochSec state' cs (i + 1)

/-- One event of the message handler: extract the subject value, the
active-hours and dependencies gates, lazy bucket creation, the store write
for non-dynamic events, the condition loop, and the final `lastValue`
update. -/
def processEvent (messageListId : String) (nowMinutes nowEpochSec : ℚ)
    (state : WatcherState) (payload : JVal) (event : EventItem) :
    Option WatcherState :=
  let actual := getValueByPath payload event.subject
  if isUndefined actual then some state
  else if !isInActiveHours event nowMinutes then some state
  else if !dependenciesSatisfied event state.store then some state
  else
    let valStr := jsString actual
    let statusKey := computeStatusKey event payload state.store
    let state1 :=
      if !event.dynamic ∧ skTruthy statusKey ∧
          (alookup (statusKey.getD "") state.eventStatus).isNone then
        { state with eventStatus := (aput (statusKey.getD "") { lastValue := jsString event.default } state.eventStatus) }
      else state
    let state2 :=
      if !event.dynamic then
        { state1 with store := (GlobalEventStore.update state1.store messageListId event.subject (.vStr valStr)) }
      else state1
    match processConditions messageListId event statusKey actual valStr payload
        nowEpochSec state2 event.conditions 0 with
    | none => none
    | some state3 =>
      if !event.dynamic ∧ skTruthy statusKey then
        let k := statusKey.getD ""
        let b := (alookup k state3.eventStatus).getD {}
        some { state3 with eventStatus := (aput k { b with lastValue := valStr } state3.eventStatus) }
      else some state3

/-- The `forEach` over all events of one delivered message. -/
def processEvents (messageListId : String) (nowMinutes nowEpochSec : ℚ) :
    WatcherState → JVal → List EventItem → Option WatcherState
  | state, _, [] => some state
  | state, payload, ev :: evs =>
    match processEvent messageListId nowMinutes nowEpochSec state payload ev with
    | none => none
    | some state' =>
      processEvents messageListId nowMinutes nowEpochSec state' payload evs

/-- The message handler: a payload that fails JSON decoding (`none`) or
decodes to a falsy value is dropped, otherwise every event is processed in
order. -/
def processMessage (messageListId : String) (nowMinutes nowEpochSec : ℚ)
    (state : WatcherState) (decoded : Option JVal) (events : List EventItem) :
    Option WatcherState :=
  match decoded with
  | none => some state
  | some payload =>
    if !truthy payload then some state
    else processEvents messageListId nowMinutes nowEpochSec state payload events

end Watcher

/-! ## `MessageService.ts`: severity-filtered fan-out -/

namespace MessageService

/-- Source `NotificationMethod`. -/
inductive NotificationMethod where
  | LOG
  | MAIL
  | SMS
deriving DecidableEq

/-- Source `NotificationListItem`. -/
structure NotificationListItem where
  method : NotificationMethod
  recipient : String
  minSeverity : Option String := none
deriving DecidableEq

/-- The `severityOrder` table (own properties only). -/
def severityOrder (s : String) : Option ℕ :=
  if s = "debug" then some 0
  else if s = "info" then some 1
  else if s = "warning" then some 2
  else if s = "critical" then some 3
  else none

/-- Source `severityOrder[s] ?? 1`. -/
def sevRank (s : String) : ℕ := (severityOrder s).getD 1

/-- The severity overload of `MessageService.sendNotifications`: the
recipients of the list that `sendNotification` is invoked for, in order. -/
def sendNotificationsBySeverity (items : List NotificationListItem)
    (severity : String) : List NotificationListItem :=
  items.filter
    (fun item => sevRank severity ≥ sevRank (item.minSeverity.getD "info"))

end MessageService


/-! ## Helper lemmas -/

/-- Looking up the key just written by `aput`. -/
theorem alookup_aput_self {α : Type} (k : String) (v : α)
    (l : List (String × α)) : alookup k (aput k v l) = some v := by
  induction l with
  | nil => simp [aput, alookup]
  | cons p r ih =>
    rcases p with ⟨k', w⟩
    by_cases h : k' = k
    · simp [aput, h, alookup]
    · simp [aput, h, alookup, ih]

/-- Source `aput` leaves other keys untouched. -/
theorem alookup_aput_ne {α : Type} (k k' : String) (v : α)
    (l : List (String × α)) (h : k ≠ k') :
    alookup k' (aput k v l) = alookup k' l := by
  induction l with
  | nil => simp [aput, alookup, h]
  | cons p r ih =>
    rcases p with ⟨k0, w⟩
    by_cases h0 : k0 = k
    · subst h0
      simp [aput, alookup, h]
    · simp [aput, h0, alookup, ih]

/-! ## Claim theorems -/

/-- C4, counterexample. The claim says every expression evaluation returns a
boolean and that malformed expressions evaluate to `false`. Both parts fail:
on the expression `"&"` the tokenizer's scan loop makes no progress and the
source spins forever (modelled as `none`), so no boolean is returned; and the
malformed expression `"!"` (an operator with no operand) evaluates to `true`,
because popping the empty operand stack yields `undefined`, which is falsy,
and negation then pushes `true`. -/
theorem c4_evaluator_counterexample :
    EventUtils.evaluateExpression "&" .vUndefined (.vObj []) [] = none ∧
    EventUtils.evaluateExpression "!" .vUndefined (.vObj []) [] = some true := by
  exact ⟨by decide, by decide⟩

/-- C4, amended. `evaluateExpression` never throws, but it is not total: an
expression positioned at a stray `&`, `|` or `=` that does not begin a
recognized two-character operator makes the tokenizer loop forever (the
`none` outcome below); whenever tokenization terminates the evaluation
returns a boolean; a malformed expression that terminates need not evaluate
to `false` (`"!"` yields `true`, the empty expression yields `false`); and
the evaluator contains no logging at all, so nothing is logged at warn
level. -/
theorem c4_evaluator_amended (v payload : JVal) (store : Store) :
    EventUtils.evaluateExpression "&" v payload store = none ∧
    EventUtils.evaluateExpression "|" v payload store = none ∧
    EventUtils.evaluateExpression "=" v payload store = none ∧
    EventUtils.evaluateExpression "!" v payload store = some true ∧
    EventUtils.evaluateExpression "" v payload store = some false ∧
    (∀ expr : String, (EventUtils.tokenize expr).isSome →
      ∃ b : Bool, EventUtils.evaluateExpression expr v payload store = some b) := by
  refine ⟨rfl, rfl, rfl, rfl, rfl, ?_⟩
  intro expr h
  rcases hT : EventUtils.tokenize expr with _ | tks
  · rw [hT] at h; simp at h
  · exact ⟨EventUtils.evalRPN (EventUtils.toRPN tks)
      (objSet payload "__watcher_value" v) store,
      by simp [EventUtils.evaluateExpression, hT]⟩

/-- C4, witness for the amended theorem: instantiated at `value = undefined`,
the empty payload object and the empty store, with the totality clause
discharged at the well-formed expression `"1 == 1"`. -/
theorem c4_evaluator_amended_witness :
    (EventUtils.tokenize "1 == 1").isSome ∧
    ∃ b : Bool, EventUtils.evaluateExpression "1 == 1" .vUndefined (.vObj []) [] = some b :=
  ⟨by decide, (c4_evaluator_amended .vUndefined (.vObj []) []).2.2.2.2.2 "1 == 1" (by decide)⟩

/-- C3: the equality operators `==`/`!=` first normalize both operands
(strings `true`/`false` become booleans, numeric-castable strings become
numbers, non-strings are unchanged) and compare the stringified normalized
forms; in particular `$\x7bx\x7d == 42` is true over payload `x = "42"` and
`"true" == true` is true. -/
theorem c3_equality_normalization :
    (∀ a b : JVal, EventUtils.compareOp a "==" b =
      decide (jsString (EventUtils.normalizeValue a) =
        jsString (EventUtils.normalizeValue b))) ∧
    (∀ a b : JVal, EventUtils.compareOp a "!=" b =
      !decide (jsString (EventUtils.normalizeValue a) =
        jsString (EventUtils.normalizeValue b))) ∧
    (∀ q : ℚ, EventUtils.normalizeValue (.vNum q) = .vNum q) ∧
    (∀ b : Bool, EventUtils.normalizeValue (.vBool b) = .vBool b) ∧
    EventUtils.normalizeValue .vNull = .vNull ∧
    EventUtils.normalizeValue .vUndefined = .vUndefined ∧
    (∀ l, EventUtils.normalizeValue (.vObj l) = .vObj l) ∧
    EventUtils.evaluateExpression "$\x7bx\x7d == 42" .vUndefined
      (.vObj [("x", .vStr "42")]) [] = some true ∧
    EventUtils.evaluateExpression "\"true\" == true" .vUndefined (.vObj []) [] =
      some true := by
  refine ⟨?_, ?_, fun q => rfl, fun b => rfl, rfl, rfl, fun l => rfl,
    by decide, by decide⟩
  · intro a b
    simp [EventUtils.compareOp]
  · intro a b
    simp [EventUtils.compareOp]

/-- Modelled from the claimed reading of template interpolation for C5: a
scanner that extends each `$\x7b...\x7d` placeholder to its matching closing
brace by depth counting. `depthSplit` returns the placeholder body and the
remainder, `none` when the braces never balance. -/
def depthSplit : ℕ → List Char → Option (List Char × List Char)
  | _, [] => none
  | depth, c :: r =>
    if c = rbraceC then
      if depth = 0 then some ([], r)
      else (depthSplit (depth - 1) r).map (fun p => (c :: p.1, p.2))
    else if c = lbraceC then
      (depthSplit (depth + 1) r).map (fun p => (c :: p.1, p.2))
    else (depthSplit depth r).map (fun p => (c :: p.1, p.2))

/-- Modelled from the claimed reading of template interpolation for C5:
the depth-counting interpolation scanner (placeholders resolved exactly as
`interpolate` resolves them, but extended to the matching closing brace). -/
def interpDepthGo (payload : JVal) (store : Store) : ℕ → List Char → List Char
  | 0, l => l
  | _ + 1, [] => []
  | _ + 1, [c] => [c]
  | fuel + 1, c :: b :: rest =>
    if c = dollarC ∧ b = lbraceC then
      match depthSplit 0 rest with
      | some (ins, aft) =>
        EventUtils.interpEmit
            (EventUtils.resolvePlaceholder (jsTrim (String.mk ins)) payload store)
          ++ interpDepthGo payload store fuel aft
      | none => c :: interpDepthGo payload store fuel (b :: rest)
    else c :: interpDepthGo payload store fuel (b :: rest)

/-- Modelled from the claimed reading of template interpolation for C5:
`interpolate` as the claim describes it, with nested braces supported by
depth counting. -/
def interpolateDepthSpec (template : String) (payload : JVal) (store : Store) :
    String :=
  String.mk (interpDepthGo payload store (template.data.length + 1) template.data)

/-- C5, counterexample. On the template `"$\x7ba\x7bb\x7dc\x7d"` (that is,
a placeholder whose spec contains a balanced inner brace pair) the claimed
depth-counting reading resolves the whole template as one placeholder
(`a\x7bb\x7dc`, an absent path, so the empty string), while the source's
regex `\$\x7b[^\x7d]+\x7d` cuts the placeholder at the first closing brace,
resolves `a\x7bb` and leaves the trailing `c\x7d` literal. -/
theorem c5_interpolate_counterexample :
    EventUtils.interpolate "$\x7ba\x7bb\x7dc\x7d" (.vObj []) [] = "c\x7d" ∧
    interpolateDepthSpec "$\x7ba\x7bb\x7dc\x7d" (.vObj []) [] = "" ∧
    EventUtils.interpolate "$\x7ba\x7bb\x7dc\x7d" (.vObj []) [] ≠
      interpolateDepthSpec "$\x7ba\x7bb\x7dc\x7d" (.vObj []) [] := by
  exact ⟨by decide, by decide, by decide⟩

/-- C5, amended: `interpolate` finds `$\x7b...\x7d` occurrences by cutting at
the first closing brace (the regex body `[^\x7d]+`, at least one character);
a placeholder whose spec contains an inner opening brace is not extended to
the matching closing brace. Over every payload and store, the template
`"$\x7ba\x7bb\x7dc\x7d"` resolves the placeholder spec `a\x7bb` and leaves
`c\x7d` literal. -/
theorem c5_interpolate_amended (payload : JVal) (store : Store) :
    EventUtils.interpolate "$\x7ba\x7bb\x7dc\x7d" payload store =
      String.mk (EventUtils.interpEmit
        (EventUtils.resolvePlaceholder "a\x7bb" payload store) ++ ['c', rbraceC]) := by
  rfl

/-- C10: `normalizeValue` maps the empty string to the number `0` (because
JS `Number("")` is `0`) and maps `true`/`false` strings to booleans
case-insensitively; consequently the expression `"" == 0` evaluates to true,
and a dependency declaring state `0` is satisfied when the Global Store
holds the empty string. -/
theorem c10_normalization_edge_cases :
    EventUtils.normalizeValue (.vStr "") = .vNum 0 ∧
    EventUtils.normalizeValue (.vStr "TRUE") = .vBool true ∧
    EventUtils.normalizeValue (.vStr "FaLsE") = .vBool false ∧
    (∀ s : String, lowerStr s = "true" →
      EventUtils.normalizeValue (.vStr s) = .vBool true) ∧
    (∀ s : String, lowerStr s = "false" →
      EventUtils.normalizeValue (.vStr s) = .vBool false) ∧
    EventUtils.evaluateExpression "\"\" == 0" .vUndefined (.vObj []) [] = some true ∧
    Watcher.dependenciesSatisfied
      { subject := "d", dependencies := some [⟨"w.s", .vNum 0⟩] }
      [(("w", "s"), .vStr "")] = true := by
  refine ⟨by decide, by decide, by decide, ?_, ?_, by decide, by decide⟩
  · intro s h
    simp [EventUtils.normalizeValue, h]
  · intro s h
    simp [EventUtils.normalizeValue, h]

/-- C10, witness: the case-insensitivity clauses instantiated at `"TRUE"`. -/
theorem c10_normalization_edge_cases_witness :
    lowerStr "TRUE" = "true" ∧
    EventUtils.normalizeValue (.vStr "TRUE") = .vBool true :=
  ⟨by decide, c10_normalization_edge_cases.2.2.2.1 "TRUE" (by decide)⟩

/-- C9: under the severity overload of `sendNotifications`, a recipient of
the list receives the message iff `rank(severity) ≥ rank(minSeverity)` with
`minSeverity` defaulting to `info`, under the total order
debug(0) < info(1) < warning(2) < critical(3). -/
theorem c9_severity_filter :
    (∀ (items : List MessageService.NotificationListItem) (sev : String)
        (item : MessageService.NotificationListItem),
      item ∈ MessageService.sendNotificationsBySeverity items sev ↔
        item ∈ items ∧
          MessageService.sevRank sev ≥
            MessageService.sevRank (item.minSeverity.getD "info")) ∧
    MessageService.sevRank "debug" = 0 ∧
    MessageService.sevRank "info" = 1 ∧
    MessageService.sevRank "warning" = 2 ∧
    MessageService.sevRank "critical" = 3 := by
  refine ⟨?_, rfl, rfl, rfl, rfl⟩
  intro items sev item
  simp [MessageService.sendNotificationsBySeverity, List.mem_filter]

/-- C9, witness: a `warning`-threshold recipient receives a `critical`
message, by the filter equivalence at a concrete list. -/
theorem c9_severity_filter_witness :
    (⟨.LOG, "", some "warning"⟩ : MessageService.NotificationListItem) ∈
      MessageService.sendNotificationsBySeverity
        [⟨.LOG, "", some "warning"⟩, ⟨.MAIL, "a", some "critical"⟩] "warning" :=
  ((c9_severity_filter.1
      [⟨.LOG, "", some "warning"⟩, ⟨.MAIL, "a", some "critical"⟩] "warning"
      ⟨.LOG, "", some "warning"⟩).mpr (by constructor <;> decide))

/-- The cooldown clamp written as a boolean conjunction. -/
theorem ite_cooldown_eq (a : Bool) (p q : Prop) [Decidable p] [Decidable q] :
    (if a = true ∧ p ∧ q then false else a) = (a && !(decide p && decide q)) := by
  by_cases hp : p <;> by_cases hq : q <;> cases a <;> simp [hp, hq]

/-- C1: one evaluation of the suppression core at its tracking key. On a
match at time `now`, the allowance starts as `!prevMatch` for a `rising`
edge and `true` otherwise, an active cooldown (`cooldownSec > 0` and
`now − lastSentAt < cooldownSec`) forces it to false, `prevMatch` is set
unconditionally, `lastSentAt` becomes `now` exactly when the final allowance
is true, and the allowance is the returned decision. On a non-match
evaluation of a `rising` condition the distinct reset path sets `prevMatch`
to false and leaves `lastSentAt` unchanged. -/
theorem c1_suppression_core (mid : String) (event : EventItem)
    (cond : EventCondition) (i : ℕ) (payload : JVal) (store : Store)
    (cs : List (String × ConditionState)) (now : ℚ)
    (k : String) (st : ConditionState)
    (hk : k = Watcher.computeConditionKey mid event cond i payload store)
    (hst : st = (alookup k cs).getD ⟨false, 0⟩) :
    (Watcher.shouldNotifyByEdgeCooldown mid event cond i payload store cs now).1 =
      ((if cond.edge.getD "level" = "rising" then !st.prevMatch else true) &&
        !(decide (cond.cooldownSec.getD 0 > 0) &&
          decide (now - st.lastSentAt < cond.cooldownSec.getD 0))) ∧
    alookup k
        (Watcher.shouldNotifyByEdgeCooldown mid event cond i payload store cs now).2 =
      some ⟨true,
        if ((if cond.edge.getD "level" = "rising" then !st.prevMatch else true) &&
            !(decide (cond.cooldownSec.getD 0 > 0) &&
              decide (now - st.lastSentAt < cond.cooldownSec.getD 0))) = true
        then now else st.lastSentAt⟩ ∧
    alookup k (Watcher.markConditionNotMatched mid event cond i payload store cs) =
      some ⟨false, st.lastSentAt⟩ := by
  have hallow :
      (Watcher.shouldNotifyByEdgeCooldown mid event cond i payload store cs now).1 =
        ((if cond.edge.getD "level" = "rising" then !st.prevMatch else true) &&
          !(decide (cond.cooldownSec.getD 0 > 0) &&
            decide (now - st.lastSentAt < cond.cooldownSec.getD 0))) := by
    simp only [Watcher.shouldNotifyByEdgeCooldown, ← hk, ← hst]
    exact ite_cooldown_eq _ _ _
  refine ⟨hallow, ?_, ?_⟩
  · have h2 :
        (Watcher.shouldNotifyByEdgeCooldown mid event cond i payload store cs now).2 =
          aput k
            ⟨true,
              if (Watcher.shouldNotifyByEdgeCooldown mid event cond i payload
                  store cs now).1 = true
              then now else st.lastSentAt⟩ cs := by
      simp only [Watcher.shouldNotifyByEdgeCooldown, ← hk, ← hst]
    rw [h2, hallow, alookup_aput_self]
  · simp only [Watcher.markConditionNotMatched, ← hk, ← hst]
    rw [alookup_aput_self]

/-- C1, witness: a first `rising` evaluation with a 10-second cooldown at
epoch second 5 on an empty state map (the allowance is suppressed because
`now − 0 < 10`, `prevMatch` is set, `lastSentAt` stays `0`; the non-match
path stores `prevMatch = false` with `lastSentAt = 0`). -/
theorem c1_suppression_core_witness :
    ("w::s::0::s" : String) =
      Watcher.computeConditionKey "w" { subject := "s" }
        { edge := some "rising", cooldownSec := some 10 } 0 (.vObj []) [] ∧
    (⟨false, 0⟩ : ConditionState) =
      (alookup "w::s::0::s" ([] : List (String × ConditionState))).getD ⟨false, 0⟩ ∧
    ((Watcher.shouldNotifyByEdgeCooldown "w" { subject := "s" }
        { edge := some "rising", cooldownSec := some 10 } 0 (.vObj []) [] [] 5).1 =
      ((if ({ edge := some "rising", cooldownSec := some 10 } :
            EventCondition).edge.getD "level" = "rising"
        then !(⟨false, 0⟩ : ConditionState).prevMatch else true) &&
        !(decide ((({ edge := some "rising", cooldownSec := some 10 } :
              EventCondition).cooldownSec.getD 0) > 0) &&
          decide ((5 : ℚ) - (⟨false, 0⟩ : ConditionState).lastSentAt <
            ({ edge := some "rising", cooldownSec := some 10 } :
              EventCondition).cooldownSec.getD 0))) ∧
      alookup "w::s::0::s"
          (Watcher.shouldNotifyByEdgeCooldown "w" { subject := "s" }
            { edge := some "rising", cooldownSec := some 10 } 0 (.vObj []) [] [] 5).2 =
        some ⟨true,
          if ((if ({ edge := some "rising", cooldownSec := some 10 } :
                EventCondition).edge.getD "level" = "rising"
            then !(⟨false, 0⟩ : ConditionState).prevMatch else true) &&
            !(decide ((({ edge := some "rising", cooldownSec := some 10 } :
                  EventCondition).cooldownSec.getD 0) > 0) &&
              decide ((5 : ℚ) - (⟨false, 0⟩ : ConditionState).lastSentAt <
                ({ edge := some "rising", cooldownSec := some 10 } :
                  EventCondition).cooldownSec.getD 0))) = true
          then (5 : ℚ) else (⟨false, 0⟩ : ConditionState).lastSentAt⟩ ∧
      alookup "w::s::0::s"
          (Watcher.markConditionNotMatched "w" { subject := "s" }
            { edge := some "rising", cooldownSec := some 10 } 0 (.vObj []) [] []) =
        some ⟨false, (⟨false, 0⟩ : ConditionState).lastSentAt⟩) :=
  ⟨by decide, by decide,
    c1_suppression_core "w" { subject := "s" }
      { edge := some "rising", cooldownSec := some 10 } 0 (.vObj []) [] [] 5
      "w::s::0::s" ⟨false, 0⟩ (by decide) (by decide)⟩

/-- One dependency is satisfied iff its path splits into exactly two parts
and the normalized store value strictly equals the normalized declared
state. -/
theorem depSatisfied_iff (store : Store) (dep : DependencyDef) :
    Watcher.depSatisfied store dep = true ↔
      ∃ w s : String,
        (EventUtils.splitOnChar '.' dep.path.data).map String.mk = [w, s] ∧
        strictEq (EventUtils.normalizeValue (GlobalEventStore.get store w s))
          (EventUtils.normalizeValue dep.state) = true := by
  unfold Watcher.depSatisfied
  rcases h : (EventUtils.splitOnChar '.' dep.path.data).map String.mk
    with _ | ⟨w, rest⟩
  · simp [h]
  · rcases rest with _ | ⟨s2, rest2⟩
    · simp [h]
    · rcases rest2 with _ | ⟨t, rest3⟩
      · simp only [h]
        constructor
        · intro hh
          exact ⟨w, s2, rfl, hh⟩
        · rintro ⟨w', s', hws, hh⟩
          injection hws with h1 h2
          injection h2 with h2 h3
          subst h1
          subst h2
          exact hh
      · simp [h]

/-- C6: `dependenciesSatisfied` holds iff every declared dependency has a
path that splits on `.` into exactly two parts `watchId.subject` and the
normalized Global Store value at that pair is strictly equal to the
normalized declared state; any other path shape leaves the dependency
unsatisfied (gating the event); in particular a stored string `"true"`
satisfies a dependency declaring state `true`. -/
theorem c6_dependencies_gate :
    (∀ (event : EventItem) (store : Store),
      Watcher.dependenciesSatisfied event store = true ↔
        ∀ dep ∈ event.dependencies.getD [],
          ∃ w s : String,
            (EventUtils.splitOnChar '.' dep.path.data).map String.mk = [w, s] ∧
            strictEq (EventUtils.normalizeValue (GlobalEventStore.get store w s))
              (EventUtils.normalizeValue dep.state) = true) ∧
    Watcher.dependenciesSatisfied
      { subject := "d", dependencies := some [⟨"lock.contact", .vBool true⟩] }
      [(("lock", "contact"), .vStr "true")] = true := by
  refine ⟨?_, by decide⟩
  intro event store
  cases hdeps : event.dependencies with
  | none => simp [Watcher.dependenciesSatisfied, hdeps]
  | some deps =>
    simp only [Watcher.dependenciesSatisfied, hdeps, Option.getD_some,
      List.all_eq_true]
    constructor
    · intro h dep hmem
      exact (depSatisfied_iff store dep).mp (h dep hmem)
    · intro h dep hmem
      exact (depSatisfied_iff store dep).mpr (h dep hmem)

/-- C6, witness: the equivalence applied at the cross-watcher scenario of
the claim (`lock.contact` stored as the string `"true"`, dependency state
the boolean `true`). -/
theorem c6_dependencies_gate_witness :
    ∀ dep ∈ (({ subject := "d", dependencies := some [⟨"lock.contact", .vBool true⟩] } : EventItem).dependencies.getD []),
      ∃ w s : String,
        (EventUtils.splitOnChar '.' dep.path.data).map String.mk = [w, s] ∧
        strictEq
          (EventUtils.normalizeValue
            (GlobalEventStore.get [(("lock", "contact"), .vStr "true")] w s))
          (EventUtils.normalizeValue dep.state) = true :=
  (c6_dependencies_gate.1
    { subject := "d", dependencies := some [⟨"lock.contact", .vBool true⟩] }
    [(("lock", "contact"), .vStr "true")]).mp (by decide)

/-- C7, counterexample. Two deviations from the claimed source-key
preference order. First, when `condition.key` is set but its interpolation
is empty, the source's truthiness chain falls through to the later
preferences instead of using the interpolated (empty) key: with
`key = "$\x7bmissing\x7d"` over an empty payload the claim prescribes
`"w::s::0::"` but the source yields `"w::s::0::s"`. Second, the
`host:path` fallback fires as soon as `payload.tags` exists and either of
`tags.host`/`tags.path` is truthy — not only when both exist: with
`tags = \x7b host: "h" \x7d` and no `path` the claim prescribes
`"w::s::0::s"` but the source yields `"w::s::0::h:"`. -/
theorem c7_condition_key_counterexample :
    Watcher.computeConditionKey "w" { subject := "s" }
      { key := some "$\x7bmissing\x7d" } 0 (.vObj []) [] = "w::s::0::s" ∧
    EventUtils.interpolate "$\x7bmissing\x7d" (.vObj []) [] = "" ∧
    ("w::s::0::s" : String) ≠ "w::s::0::" ∧
    Watcher.computeConditionKey "w" { subject := "s" } {} 0
      (.vObj [("tags", .vObj [("host", .vStr "h")])]) [] = "w::s::0::h:" ∧
    ("w::s::0::h:" : String) ≠ "w::s::0::s" := by
  exact ⟨by decide, by decide, by decide, by decide, by decide⟩

/-- C7, amended: the suppression-tracking key is
`"<watcherId>::<subject>::<conditionIndex>::<sourceKey>"` where `sourceKey`
is the first NON-EMPTY string among: the interpolation of `condition.key`
when set; the interpolation of `event.stateKey` when set; then, when
`payload.tags` is truthy and at least one of `tags.host`/`tags.path` is
truthy, `"<tags.host>:<tags.path>"` with a nullish part rendered empty;
otherwise `event.subject`. -/
theorem c7_condition_key_amended (mid : String) (event : EventItem)
    (cond : EventCondition) (i : ℕ) (payload : JVal) (store : Store) :
    (∀ k, cond.key = some k → k ≠ "" →
      EventUtils.interpolate k payload store ≠ "" →
      Watcher.computeConditionKey mid event cond i payload store =
        mid ++ "::" ++ event.subject ++ "::" ++ toString i ++ "::" ++
          EventUtils.interpolate k payload store) ∧
    ((∀ k, cond.key = some k → k = "" ∨ EventUtils.interpolate k payload store = "") →
      ∀ sk, event.stateKey = some sk → sk ≠ "" →
        EventUtils.interpolate sk payload store ≠ "" →
        Watcher.computeConditionKey mid event cond i payload store =
          mid ++ "::" ++ event.subject ++ "::" ++ toString i ++ "::" ++
            EventUtils.interpolate sk payload store) ∧
    ((∀ k, cond.key = some k → k = "" ∨ EventUtils.interpolate k payload store = "") →
      (∀ sk, event.stateKey = some sk → sk = "" ∨
        EventUtils.interpolate sk payload store = "") →
      truthy (objGet payload "tags") = true →
      (truthy (objGet (objGet payload "tags") "host") = true ∨
        truthy (objGet (objGet payload "tags") "path") = true) →
      Watcher.computeConditionKey mid event cond i payload store =
        mid ++ "::" ++ event.subject ++ "::" ++ toString i ++ "::" ++
          Watcher.nullishStr (objGet (objGet payload "tags") "host") ++ ":" ++
          Watcher.nullishStr (objGet (objGet payload "tags") "path")) ∧
    ((∀ k, cond.key = some k → k = "" ∨ EventUtils.interpolate k payload store = "") →
      (∀ sk, event.stateKey = some sk → sk = "" ∨
        EventUtils.interpolate sk payload store = "") →
      ¬ (truthy (objGet payload "tags") = true ∧
        (truthy (objGet (objGet payload "tags") "host") = true ∨
          truthy (objGet (objGet payload "tags") "path") = true)) →
      Watcher.computeConditionKey mid event cond i payload store =
        mid ++ "::" ++ event.subject ++ "::" ++ toString i ++ "::" ++
          event.subject) := by
  have hb1off : (∀ k, cond.key = some k → k = "" ∨
      EventUtils.interpolate k payload store = "") →
      (match cond.key with
       | some k => if k ≠ "" then EventUtils.interpolate k payload store else ""
       | none => "") = "" := by
    intro h
    cases hk : cond.key with
    | none => rfl
    | some k =>
      rcases h k hk with h1 | h1
      · simp [h1]
      · by_cases hne : k = "" <;> simp [hne, h1]
  have hb2off : (∀ sk, event.stateKey = some sk → sk = "" ∨
      EventUtils.interpolate sk payload store = "") →
      (match event.stateKey with
       | some k => if k ≠ "" then EventUtils.interpolate k payload store else ""
       | none => "") = "" := by
    intro h
    cases hk : event.stateKey with
    | none => rfl
    | some sk =>
      rcases h sk hk with h1 | h1
      · simp [h1]
      · by_cases hne : sk = "" <;> simp [hne, h1]
  refine ⟨?_, ?_, ?_, ?_⟩
  · intro k hk hne hint
    unfold Watcher.computeConditionKey
    simp only [hk, hne, if_true, hint, if_pos, ite_not]
    simp [hne, hint]
  · intro hoff sk hsk hne hint
    unfold Watcher.computeConditionKey
    rw [hb1off hoff]
    simp only [hsk]
    simp [hne, hint]
  · intro hoff1 hoff2 htags hhp
    unfold Watcher.computeConditionKey
    rw [hb1off hoff1, hb2off hoff2]
    simp only [htags]
    rcases hhp with h | h <;> simp [h, String.append_assoc]
  · intro hoff1 hoff2 htags
    unfold Watcher.computeConditionKey
    rw [hb1off hoff1, hb2off hoff2]
    by_cases ht : truthy (objGet payload "tags") = true
    · have hh : ¬ (truthy (objGet (objGet payload "tags") "host") = true ∨
          truthy (objGet (objGet payload "tags") "path") = true) := by
        intro hc
        exact htags ⟨ht, hc⟩
      push_neg at hh
      simp [ht, hh.1, hh.2]
    · simp at ht
      simp [ht]

/-- C7, witness for the amended preference chain: a set, non-empty
`condition.key` whose interpolation is the literal `"k"` wins the chain. -/
theorem c7_condition_key_amended_witness :
    (some "k" : Option String) = some "k" ∧ ("k" : String) ≠ "" ∧
    EventUtils.interpolate "k" (.vObj []) [] ≠ "" ∧
    Watcher.computeConditionKey "w" { subject := "s" } { key := some "k" } 0
        (.vObj []) [] =
      "w" ++ "::" ++ "s" ++ "::" ++ toString 0 ++ "::" ++
        EventUtils.interpolate "k" (.vObj []) [] :=
  ⟨rfl, by decide, by decide,
    (c7_condition_key_amended "w" { subject := "s" } { key := some "k" } 0
      (.vObj []) []).1 "k" rfl (by decide) (by decide)⟩

/-- A condition evaluation of a dynamic event changes neither the bucket map
nor the store. -/
theorem processCondition_dynamic_frame (mid : String) (event : EventItem)
    (sk : Option String) (actual : JVal) (valStr : String) (payload : JVal)
    (now : ℚ) (s s' : WatcherState) (cond : EventCondition) (i : ℕ)
    (hdyn : event.dynamic = true)
    (h : Watcher.processCondition mid event sk actual valStr payload now s cond i
      = some s') :
    s'.eventStatus = s.eventStatus ∧ s'.store = s.store := by
  unfold Watcher.processCondition at h
  rcases hm : Watcher.condMatched cond actual payload s.store with _ | m
  · rw [hm] at h
    simp at h
  · rw [hm] at h
    dsimp only at h
    cases m with
    | false =>
      simp only [Bool.not_false, if_true, Option.some.injEq] at h
      split at h <;>
        first
          | (injection h with h
             exact ⟨by rw [← h], by rw [← h]⟩)
          | exact ⟨by rw [← h], by rw [← h]⟩
    | true =>
      simp only [Bool.not_true, Bool.false_eq_true, false_and, if_false, hdyn,
        if_true, Option.some.injEq] at h
      split at h <;>
        first
          | (injection h with h
             exact ⟨by rw [← h], by rw [← h]⟩)
          | exact ⟨by rw [← h], by rw [← h]⟩

/-- The condition loop of a dynamic event changes neither the bucket map nor
the store. -/
theorem processConditions_dynamic_frame (mid : String) (event : EventItem)
    (sk : Option String) (actual : JVal) (valStr : String) (payload : JVal)
    (now : ℚ) :
    ∀ (conds : List EventCondition) (i : ℕ) (s s' : WatcherState),
      event.dynamic = true →
      Watcher.processConditions mid event sk actual valStr payload now s conds i
        = some s' →
      s'.eventStatus = s.eventStatus ∧ s'.store = s.store := by
  intro conds
  induction conds with
  | nil =>
    intro i s s' _ h
    simp [Watcher.processConditions] at h
    simp [← h]
  | cons c cs ih =>
    intro i s s' hdyn h
    unfold Watcher.processConditions at h
    rcases h1 : Watcher.processCondition mid event sk actual valStr payload now
        s c i with _ | s1
    · rw [h1] at h
      simp at h
    · rw [h1] at h
      have f1 := processCondition_dynamic_frame mid event sk actual valStr
        payload now s s1 c i hdyn h1
      have f2 := ih (i + 1) s1 s' hdyn h
      exact ⟨f2.1.trans f1.1, f2.2.trans f1.2⟩

/-- C8: processing a delivered message for an event with `dynamic == true`
allocates no `EventStatus` bucket and performs no Global Store write
originating from that event — the bucket map and the store after
`processEvent` are exactly what they were before. -/
theorem c8_dynamic_isolation (mid : String) (nowM nowS : ℚ)
    (s s' : WatcherState) (payload : JVal) (event : EventItem)
    (hdyn : event.dynamic = true)
    (h : Watcher.processEvent mid nowM nowS s payload event = some s') :
    s'.eventStatus = s.eventStatus ∧ s'.store = s.store := by
  unfold Watcher.processEvent at h
  dsimp only at h
  by_cases h0 : isUndefined (EventUtils.getValueByPath payload event.subject) = true
  · rw [if_pos h0] at h
    injection h with h
    exact ⟨by rw [← h], by rw [← h]⟩
  · rw [if_neg h0] at h
    by_cases h2 : (!Watcher.isInActiveHours event nowM) = true
    · rw [if_pos h2] at h
      injection h with h
      exact ⟨by rw [← h], by rw [← h]⟩
    · rw [if_neg h2] at h
      by_cases h3 : (!Watcher.dependenciesSatisfied event s.store) = true
      · rw [if_pos h3] at h
        injection h with h
        exact ⟨by rw [← h], by rw [← h]⟩
      · rw [if_neg h3] at h
        simp only [hdyn, Bool.not_true, Bool.false_eq_true, false_and,
          if_false] at h
        rcases h1 : Watcher.processConditions mid event
            (Watcher.computeStatusKey event payload s.store)
            (EventUtils.getValueByPath payload event.subject)
            (jsString (EventUtils.getValueByPath payload event.subject)) payload
            nowS s event.conditions 0 with _ | s3
        · rw [h1] at h
          simp at h
        · rw [h1] at h
          dsimp only at h
          injection h with h
          subst h
          exact processConditions_dynamic_frame mid event
            (Watcher.computeStatusKey event payload s.store)
            (EventUtils.getValueByPath payload event.subject)
            (jsString (EventUtils.getValueByPath payload event.subject)) payload
            nowS event.conditions 0 s s3 hdyn h1

/-- C8, witness: a dynamic disk-style event processed over the empty state
(the run sends one notification and records edge state, but creates no
bucket and writes nothing to the store). -/
theorem c8_dynamic_isolation_witness :
    (({ subject := "s", dynamic := true,
        conditions := [{ value := .vUndefined, message := "M" }] } :
        EventItem).dynamic = true) ∧
    Watcher.processEvent "w" 0 0 {} (.vObj [("s", .vStr "1")])
        { subject := "s", dynamic := true,
          conditions := [{ value := .vUndefined, message := "M" }] } =
      some { eventStatus := [],
             conditionState := [("w::s::0::s", ⟨true, 0⟩)],
             store := [], sent := [("M", "info")] } ∧
    ({ eventStatus := [], conditionState := [("w::s::0::s", ⟨true, 0⟩)],
       store := [], sent := [("M", "info")] } : WatcherState).eventStatus =
      ({} : WatcherState).eventStatus ∧
    ({ eventStatus := [], conditionState := [("w::s::0::s", ⟨true, 0⟩)],
       store := [], sent := [("M", "info")] } : WatcherState).store =
      ({} : WatcherState).store :=
  ⟨rfl, by decide,
    c8_dynamic_isolation "w" 0 0 {} _ (.vObj [("s", .vStr "1")])
      { subject := "s", dynamic := true,
        conditions := [{ value := .vUndefined, message := "M" }] } rfl (by decide)⟩

/-- The warning message captured at arm time, as claim C2 describes it: the
interpolated `warningMessage` when one is declared (and non-empty),
otherwise the plain `message`. -/
def legacyWarnMsg (cond : EventCondition) (payload : JVal) (store : Store) :
    String :=
  match cond.warningMessage with
  | some wm =>
    if wm ≠ "" then EventUtils.interpolate wm payload store else cond.message
  | none => cond.message

/-- The warning timer after a legacy (re)evaluation, as claim C2 describes
it: kept when already armed, armed with the arm-time snapshot when not,
cleared when the threshold is absent or not positive. -/
def legacyWarningTimeout (cond : EventCondition) (b : EventStatus)
    (valStr : String) (payload : JVal) (store : Store) : Option WarnTimer :=
  match cond.warningThreshold with
  | some w =>
    if 0 < w then
      match b.warningTimeout with
      | none =>
        some ⟨w, valStr,
          { cond with warningMessage := some (legacyWarnMsg cond payload store) }⟩
      | some t => some t
    else none
  | none => none

/-- The reset timer after a legacy (re)evaluation: re-armed exactly when
`reset` is positive. -/
def legacyResetTimeout (cond : EventCondition) : Option ℚ :=
  match cond.reset with
  | some r => if 0 < r then some r else none
  | none => none

/-- The `warningDone` flag after a legacy (re)evaluation: kept when the
threshold is positive, reset otherwise. -/
def legacyWarningDone (cond : EventCondition) (b : EventStatus) : Bool :=
  match cond.warningThreshold with
  | some w => if 0 < w then b.warningDone else false
  | none => false

/-- The bucket after the legacy branch of claim C2: timers re-evaluated and
`lastHandledValue` recorded, `lastValue` untouched. -/
def legacyBucketUpdate (cond : EventCondition) (b : EventStatus)
    (valStr : String) (payload : JVal) (store : Store) : EventStatus :=
  { b with
    lastHandledValue := some valStr,
    warningTimeout := legacyWarningTimeout cond b valStr payload store,
    resetTimeout := legacyResetTimeout cond,
    warningDone := legacyWarningDone cond b }

/-- C2: for a matching, non-suppressed condition of a non-dynamic event,
with the edge field ranging over its declared domain: when the condition
declares neither a non-`level` edge nor a positive `cooldownSec`, the
notification is sent iff the bucket's `lastValue` before this message
differs from the stringified current value, the warning and reset timers
are (re)evaluated (`legacyBucketUpdate`) and `lastHandledValue` is
recorded; otherwise (the user opted into edge/cooldown) the notification is
sent unconditionally, no legacy timers are touched and `lastHandledValue`
is not recorded. -/
theorem c2_stateful_dispatch
    (mid : String) (event : EventItem) (cond : EventCondition) (i : ℕ)
    (actual payload : JVal) (now : ℚ) (s : WatcherState) (sk valStr : String)
    (b : EventStatus)
    (hedge : cond.edge = none ∨ cond.edge = some "level" ∨
      cond.edge = some "rising")
    (hdyn : event.dynamic = false)
    (hsk : sk ≠ "")
    (hb : alookup sk s.eventStatus = some b)
    (hval : valStr = jsString actual)
    (hmatch : Watcher.condMatched cond actual payload s.store = some true)
    (hallow : (Watcher.shouldNotifyByEdgeCooldown mid event cond i payload
      s.store s.conditionState now).1 = true) :
    ((cond.edge = some "rising" ∨ ∃ c, cond.cooldownSec = some c ∧ 0 < c) →
      Watcher.processCondition mid event (some sk) actual valStr payload now
          s cond i =
        some { s with
          conditionState := (Watcher.shouldNotifyByEdgeCooldown mid event cond i payload s.store s.conditionState now).2,
          sent := s.sent ++ [(EventUtils.interpolate cond.message payload s.store, cond.severity.getD "info")] }) ∧
    (¬ (cond.edge = some "rising" ∨ ∃ c, cond.cooldownSec = some c ∧ 0 < c) →
      Watcher.processCondition mid event (some sk) actual valStr payload now
          s cond i =
        some { s with
          conditionState := (Watcher.shouldNotifyByEdgeCooldown mid event cond i payload s.store s.conditionState now).2,
          eventStatus := aput sk (legacyBucketUpdate cond b valStr payload s.store) s.eventStatus,
          sent := (if b.lastValue ≠ valStr then s.sent ++ [(EventUtils.interpolate cond.message payload s.store, cond.severity.getD "info")] else s.sent) }) := by
  have hrun : Watcher.processCondition mid event (some sk) actual valStr
      payload now s cond i =
      some (Watcher.notifyStateful cond (some sk) valStr
        (EventUtils.interpolate cond.message payload s.store) payload
        { s with conditionState := (Watcher.shouldNotifyByEdgeCooldown mid
            event cond i payload s.store s.conditionState now).2 }) := by
    unfold Watcher.processCondition
    rw [hmatch]
    dsimp only
    simp only [Bool.not_true, Bool.false_eq_true, false_and, if_false,
      hallow, hdyn]
  constructor
  · intro hopted
    have hcu : Watcher.condUserControls cond = true := by
      unfold Watcher.condUserControls
      rcases hopted with h | ⟨c, hc, hcpos⟩
      · rw [h]
        simp
      · rw [hc]
        simp [hcpos, hcpos.ne']
    rw [hrun]
    unfold Watcher.notifyStateful
    simp only [hcu, Bool.not_true, Bool.false_eq_true, false_and, if_false]
  · intro hopted
    push_neg at hopted
    have hcu : Watcher.condUserControls cond = false := by
      unfold Watcher.condUserControls
      have hcool : (match cond.cooldownSec with
          | some c => (c ≠ 0 && decide (c > 0))
          | none => false) = false := by
        rcases hc : cond.cooldownSec with _ | c
        · rfl
        · have hle := hopted.2 c hc
          have : ¬ (0 < c) := not_lt_of_ge hle
          simp [this]
      rw [hcool]
      rcases hedge with h | h | h
      · rw [h]
        rfl
      · rw [h]
        simp
      · exact absurd h hopted.1
    rw [hrun]
    unfold Watcher.notifyStateful
    simp only [hcu, Bool.not_false, Watcher.skTruthy, hsk, true_and, if_true,
      Option.getD_some]
    have hskd : decide (sk ≠ "") = true := by simp [hsk]
    rw [if_pos hskd, hb]
    simp only [Option.getD_some]
    have hiff : ∀ (q : ℚ), (q ≠ 0 ∧ q > 0) = (0 < q) :=
      fun q => propext ⟨fun h => h.2, fun h => ⟨h.ne', h⟩⟩
    simp only [hiff]
    rcases hwth : cond.warningThreshold with _ | w <;>
      rcases hr : cond.reset with _ | r <;>
        rcases hbw : b.warningTimeout with _ | t <;>
          simp only [legacyBucketUpdate, legacyWarningTimeout,
            legacyResetTimeout, legacyWarningDone, legacyWarnMsg, hwth, hr,
            hbw] <;>
          split_ifs <;>
          simp_all

/-- Concrete condition for the C2 witness: matches every value, no edge, no
cooldown. -/
def c2WitnessCond : EventCondition := { value := .vUndefined, message := "M" }

/-- Concrete bucket for the C2 witness, seeded with `lastValue = "0"`. -/
def c2WitnessBucket : EventStatus := { lastValue := "0" }

/-- Concrete watcher state for the C2 witness: one bucket under key `"s"`. -/
def c2WitnessState : WatcherState := { eventStatus := [("s", c2WitnessBucket)] }

/-- Concrete payload for the C2 witness. -/
def c2WitnessPayload : JVal := .vObj [("s", .vStr "1")]

/-- Concrete event for the C2 witness. -/
def c2WitnessEvent : EventItem := { subject := "s" }

/-- C2, witness: the legacy branch at a concrete non-dynamic event — the
value changed from `"0"` to `"1"`, so the notification is sent, the timers
stay cleared and `lastHandledValue` records `"1"`. -/
theorem c2_stateful_dispatch_witness :
    Watcher.condMatched c2WitnessCond (.vStr "1") c2WitnessPayload
        c2WitnessState.store = some true ∧
    (Watcher.shouldNotifyByEdgeCooldown "w" c2WitnessEvent c2WitnessCond 0
      c2WitnessPayload c2WitnessState.store c2WitnessState.conditionState
      0).1 = true ∧
    Watcher.processCondition "w" c2WitnessEvent (some "s") (.vStr "1") "1"
        c2WitnessPayload 0 c2WitnessState c2WitnessCond 0 =
      some { c2WitnessState with
        conditionState := (Watcher.shouldNotifyByEdgeCooldown "w" c2WitnessEvent c2WitnessCond 0 c2WitnessPayload c2WitnessState.store c2WitnessState.conditionState 0).2,
        eventStatus := aput "s" (legacyBucketUpdate c2WitnessCond c2WitnessBucket "1" c2WitnessPayload c2WitnessState.store) c2WitnessState.eventStatus,
        sent := (if c2WitnessBucket.lastValue ≠ "1" then c2WitnessState.sent ++ [(EventUtils.interpolate c2WitnessCond.message c2WitnessPayload c2WitnessState.store, c2WitnessCond.severity.getD "info")] else c2WitnessState.sent) } :=
  ⟨by decide, by decide,
    (c2_stateful_dispatch "w" c2WitnessEvent c2WitnessCond 0 (.vStr "1")
      c2WitnessPayload 0 c2WitnessState "s" "1" c2WitnessBucket
      (Or.inl (by decide)) (by decide) (by decide) (by decide) (by decide)
      (by decide) (by decide)).2
      (by rintro (h | ⟨c, hc, _⟩) <;> simp_all [c2WitnessCond])⟩
